import Mathlib

/-!
# trello-watcher: a shallow embedding of the reconciliation engine

This file embeds the card-sync engine of the trello-watcher repository
(`main.go`, final revision): the board model, activation reconciliation
(`SetupActiveProjectCard`), deactivation reconciliation
(`StoreInactiveProjectCard`), the two webhook event handlers
(`ListChange.Handle`, `CheckItemChange.Handle`), and the HTTP dispatch
(`index` / `RecordResponse`).

Modelling decisions:
* The five named lists of the board are fixed by `init` (which aborts unless
  all five exist), so their ids and names are constants here.
* Cards, checklists and webhooks live on the remote Trello service; the
  engine reads them through the `trel` client.  Remote reads that the engine
  snapshots (list memberships, a card's checklists) appear as explicit
  parameters or as fields of `BoardState`; remote writes (move, create,
  webhook toggle) update `BoardState` and are also logged in an event trace
  (`Ev`), which the ordering claims are stated over.
* `trel`'s `Cards.Find` / `List.FindCard` / `CheckItems.Find` return the
  first element whose name matches exactly, or a `NotFoundError`; webhooks
  are looked up by the watched model's id.  These are the narrow contracts
  of spec section 6; the library itself is an external collaborator.
* Remote calls that can fail with a non-NotFound error (the list fetches and
  the move call inside `CheckItemChange.Handle`) take an explicit fault
  injection (`Faults`); everywhere else the happy path is modelled.
* Go's machine integers never overflow here (ids are opaque); card ids are
  `Nat`, with a `nextId` counter standing for the remote service handing out
  fresh ids on creation.
-/

namespace TW

/-- A Trello card: an identifier and a name.  The name is the key used to
correlate a card with a checklist item. -/
structure Card where
  id : Nat
  name : String
deriving DecidableEq, Repr

/-- A checklist item: a name and a state (`"complete"` / `"incomplete"`). -/
structure CheckItem where
  name : String
  state : String
deriving DecidableEq, Repr

/-- A checklist: the set of its check items (owned by a project card). -/
structure Checklist where
  checkItems : List CheckItem
deriving DecidableEq, Repr

/-- A webhook: the watched model's id and its active flag. -/
structure Webhook where
  idModel : Nat
  active : Bool
deriving DecidableEq, Repr

/-- The five lists' ids, fixed for the whole run (fetched once by `init`). -/
def projectsId : Nat := 1
def activeId : Nat := 2
def todoId : Nat := 3
def doneId : Nat := 4
def storageId : Nat := 5

/-- The five lists' names: `init` aborts unless the board has exactly these. -/
def projectsName : String := "Projects"
def activeName : String := "Active"
def todoName : String := "To Do"
def doneName : String := "Done"
def storageName : String := "Storage"

/-- The mutable board state the engine reads and writes through the remote
service: membership of the three tracking lists, the webhook registry, and
the remote service's supply of fresh card ids. -/
structure BoardState where
  storage : List Card
  todo : List Card
  done : List Card
  webhooks : List Webhook
  nextId : Nat
deriving DecidableEq, Repr

/-- `trel` `Cards.Find` / `List.FindCard` (local part): the first card whose
name matches exactly, if any. -/
def findCard (cs : List Card) (n : String) : Option Card :=
  cs.find? (fun c => decide (c.name = n))

/-- `trel` `Webhooks.Find`: the first webhook watching the given model id. -/
def findWebhook (ws : List Webhook) (modelId : Nat) : Option Webhook :=
  ws.find? (fun w => decide (w.idModel = modelId))

/-- `HasWebhook` (main.go): whether a webhook for the model id is registered. -/
def HasWebhook (modelId : Nat) (ws : List Webhook) : Bool :=
  (findWebhook ws modelId).isSome

/-- Drop every card with the given id from a list. -/
def removeCard (cs : List Card) (i : Nat) : List Card :=
  cs.filter (fun c => decide (c.id ≠ i))

/-- Set the active flag of the webhook watching `modelId`. -/
def setWebhookActive (ws : List Webhook) (modelId : Nat) (b : Bool) : List Webhook :=
  ws.map (fun w => if w.idModel = modelId then ⟨w.idModel, b⟩ else w)

/-- `trel` `Card.Move`: the card leaves whichever tracking list holds it and
joins the target list. -/
def moveCard (st : BoardState) (c : Card) (l : Nat) : BoardState :=
  let s := removeCard st.storage c.id
  let t := removeCard st.todo c.id
  let d := removeCard st.done c.id
  if l = storageId then ⟨s ++ [⟨c.id, c.name⟩], t, d, st.webhooks, st.nextId⟩
  else if l = todoId then ⟨s, t ++ [⟨c.id, c.name⟩], d, st.webhooks, st.nextId⟩
  else if l = doneId then ⟨s, t, d ++ [⟨c.id, c.name⟩], st.webhooks, st.nextId⟩
  else ⟨s, t, d, st.webhooks, st.nextId⟩

/-- `trel` `List.NewCard`: the remote service creates a card with a fresh id
in the given list. -/
def newCard (st : BoardState) (n : String) (l : Nat) : BoardState × Card :=
  let c : Card := ⟨st.nextId, n⟩
  if l = todoId then
    (⟨st.storage, st.todo ++ [c], st.done, st.webhooks, st.nextId + 1⟩, c)
  else if l = doneId then
    (⟨st.storage, st.todo, st.done ++ [c], st.webhooks, st.nextId + 1⟩, c)
  else
    (⟨st.storage, st.todo, st.done, st.webhooks, st.nextId + 1⟩, c)

/-- The remote calls the engine issues, in order: the event trace the
ordering claims are stated over. -/
inductive Ev where
  | fetchCard (cardId : Nat)
  | fetchChecklists (cardId : Nat)
  | fetchCards (listId : Nat)
  | createWebhook (modelId : Nat)
  | activateWebhook (modelId : Nat)
  | deactivateWebhook (modelId : Nat)
  | move (cardId : Nat) (listId : Nat)
  | create (name : String) (listId : Nat)
  | completeItem (name : String)
  | incompleteItem (name : String)
deriving DecidableEq, Repr

/-- Is the event a card move? -/
def isMove : Ev → Bool
  | .move _ _ => true
  | _ => false

/-- Is the event a card creation? -/
def isCreate : Ev → Bool
  | .create _ _ => true
  | _ => false

/-- Does the event create or move a card? -/
def isCardChange (e : Ev) : Bool := isMove e || isCreate e

/-- Is the event a list-membership fetch? -/
def isFetchCards : Ev → Bool
  | .fetchCards _ => true
  | _ => false

/-- Is the event a webhook operation on the given model id? -/
def isWebhookOn (i : Nat) : Ev → Bool
  | .createWebhook j => decide (j = i)
  | .activateWebhook j => decide (j = i)
  | .deactivateWebhook j => decide (j = i)
  | _ => false

/-- Is the event a card-create with this name? -/
def isCreateNamed (n : String) : Ev → Bool
  | .create m _ => decide (m = n)
  | _ => false

/-- The three tracking lists' memberships: the part of the board state the
idempotence claim compares. -/
def cardLists (st : BoardState) : List Card × List Card × List Card :=
  (st.storage, st.todo, st.done)

/-- `SetupActiveProjectCard` line "If every item in the checklist is complete,
skip": the loop sets `allComplete` to false exactly when some item's state is
`"incomplete"`. -/
def allComplete (cl : Checklist) : Bool :=
  !(cl.checkItems.any (fun ci => decide (ci.state = "incomplete")))

/-- The target list of a checklist item: `Done` if complete, else `To Do`
(`list := board.ToDo; if ci.State == "complete" { list = board.Done }`). -/
def targetList (ci : CheckItem) : Nat :=
  if ci.state = "complete" then doneId else todoId

/-- Outcome of the checklist loop of a reconciliation: the state, the trace,
and whether the Go code executed an early `return` out of the whole
function. -/
structure LoopOut where
  st : BoardState
  tr : List Ev
  early : Bool
deriving DecidableEq, Repr

/-- One iteration of `SetupActiveProjectCard`'s inner item loop
(main.go lines 454-484).  `snapS`, `snapT`, `snapD` are the Storage / To Do /
Done memberships fetched once before the loop.  The found-in-To-Do-or-Done
branch is Go's `return nil`: it ends the whole reconciliation (`early`). -/
def setupItem (snapS snapT snapD : List Card) (st : BoardState) (ci : CheckItem) : LoopOut :=
  match findCard snapS ci.name with
  | none =>
    if (findCard snapT ci.name).isSome then ⟨st, [], true⟩
    else if (findCard snapD ci.name).isSome then ⟨st, [], true⟩
    else ⟨(newCard st ci.name (targetList ci)).1, [Ev.create ci.name (targetList ci)], false⟩
  | some c => ⟨moveCard st c (targetList ci), [Ev.move c.id (targetList ci)], false⟩

/-- `SetupActiveProjectCard`'s inner loop over one checklist's items,
propagating the early `return`. -/
def setupItems (snapS snapT snapD : List Card) (st : BoardState) :
    List CheckItem → LoopOut
  | [] => ⟨st, [], false⟩
  | ci :: rest =>
    let o := setupItem snapS snapT snapD st ci
    if o.early then ⟨o.st, o.tr, true⟩
    else
      let o' := setupItems snapS snapT snapD o.st rest
      ⟨o'.st, o.tr ++ o'.tr, o'.early⟩

/-- `SetupActiveProjectCard`'s outer loop over the project card's checklists
(main.go lines 440-486): an all-complete checklist is skipped whole. -/
def setupChecklists (snapS snapT snapD : List Card) (st : BoardState) :
    List Checklist → LoopOut
  | [] => ⟨st, [], false⟩
  | cl :: rest =>
    if allComplete cl then setupChecklists snapS snapT snapD st rest
    else
      let o := setupItems snapS snapT snapD st cl.checkItems
      if o.early then ⟨o.st, o.tr, true⟩
      else
        let o' := setupChecklists snapS snapT snapD o.st rest
        ⟨o'.st, o.tr ++ o'.tr, o'.early⟩

/-- `SetupActiveProjectCard` lines 398-413: register a webhook for the
project card if none exists, then activate it. -/
def ensureActivateCardWebhook (cardId : Nat) (st : BoardState) : BoardState × List Ev :=
  if HasWebhook cardId st.webhooks then
    (⟨st.storage, st.todo, st.done, setWebhookActive st.webhooks cardId true, st.nextId⟩,
      [Ev.activateWebhook cardId])
  else
    (⟨st.storage, st.todo, st.done,
        setWebhookActive (st.webhooks ++ [⟨cardId, true⟩]) cardId true, st.nextId⟩,
      [Ev.createWebhook cardId, Ev.activateWebhook cardId])

/-- `if wh, err := board.Webhooks.Find(board.Done.ID); err == nil
{ wh.Deactivate() }`: best effort, a no-op when no Done webhook exists. -/
def deactivateDoneIfFound (st : BoardState) : BoardState × List Ev :=
  match findWebhook st.webhooks doneId with
  | some _ =>
    (⟨st.storage, st.todo, st.done, setWebhookActive st.webhooks doneId false, st.nextId⟩,
      [Ev.deactivateWebhook doneId])
  | none => (st, [])

/-- The matching best-effort reactivation of the Done webhook. -/
def activateDoneIfFound (st : BoardState) : BoardState × List Ev :=
  match findWebhook st.webhooks doneId with
  | some _ =>
    (⟨st.storage, st.todo, st.done, setWebhookActive st.webhooks doneId true, st.nextId⟩,
      [Ev.activateWebhook doneId])
  | none => (st, [])

/-- `SetupActiveProjectCard` (main.go lines 397-494), happy path: ensure and
activate the project card's webhook, fetch the card's checklists and the
three list memberships (once), deactivate the Done webhook, run the checklist
loop over the snapshots, and reactivate the Done webhook - unless the loop
ended in the early `return nil`, which skips the reactivation. -/
def SetupActiveProjectCard (cardId : Nat) (checklists : List Checklist)
    (st : BoardState) : BoardState × List Ev :=
  let st1 := (ensureActivateCardWebhook cardId st).1
  let tr1 := (ensureActivateCardWebhook cardId st).2
  let trF := [Ev.fetchChecklists cardId, Ev.fetchCards storageId,
    Ev.fetchCards todoId, Ev.fetchCards doneId]
  let st2 := (deactivateDoneIfFound st1).1
  let tr2 := (deactivateDoneIfFound st1).2
  let o := setupChecklists st1.storage st1.todo st1.done st2 checklists
  if o.early then (o.st, tr1 ++ trF ++ tr2 ++ o.tr)
  else ((activateDoneIfFound o.st).1,
    tr1 ++ trF ++ tr2 ++ o.tr ++ (activateDoneIfFound o.st).2)

/-- `StoreInactiveProjectCard`'s inner loop (main.go lines 519-533): move
each item's card - looked up in the To Do ++ Done snapshot - to Storage,
silently skipping items whose card is missing. -/
def storeItems (snap : List Card) (st : BoardState) : List CheckItem → BoardState × List Ev
  | [] => (st, [])
  | ci :: rest =>
    match findCard snap ci.name with
    | none => storeItems snap st rest
    | some c =>
      ((storeItems snap (moveCard st c storageId) rest).1,
        Ev.move c.id storageId :: (storeItems snap (moveCard st c storageId) rest).2)

/-- `StoreInactiveProjectCard`'s loop over the checklists. -/
def storeChecklists (snap : List Card) (st : BoardState) :
    List Checklist → BoardState × List Ev
  | [] => (st, [])
  | cl :: rest =>
    let st1 := (storeItems snap st cl.checkItems).1
    ((storeChecklists snap st1 rest).1,
      (storeItems snap st cl.checkItems).2 ++ (storeChecklists snap st1 rest).2)

/-- `StoreInactiveProjectCard` (main.go lines 496-548), happy path: fetch the
checklists and the To Do / Done memberships, deactivate the Done webhook,
park every item's card in Storage, reactivate the Done webhook, and finally
deactivate the project card's own webhook if one is registered. -/
def StoreInactiveProjectCard (cardId : Nat) (checklists : List Checklist)
    (st : BoardState) : BoardState × List Ev :=
  let trF := [Ev.fetchChecklists cardId, Ev.fetchCards todoId, Ev.fetchCards doneId]
  let snap := st.todo ++ st.done
  let st2 := (deactivateDoneIfFound st).1
  let tr2 := (deactivateDoneIfFound st).2
  let st3 := (storeChecklists snap st2 checklists).1
  let tr3 := (storeChecklists snap st2 checklists).2
  let st4 := (activateDoneIfFound st3).1
  let tr4 := (activateDoneIfFound st3).2
  match findWebhook st4.webhooks cardId with
  | none => (st4, trF ++ tr2 ++ tr3 ++ tr4)
  | some _ =>
    (⟨st4.storage, st4.todo, st4.done, setWebhookActive st4.webhooks cardId false, st4.nextId⟩,
      trF ++ tr2 ++ tr3 ++ tr4 ++ [Ev.deactivateWebhook cardId])

/-- The checklist loop of `SetupActiveProjectCard`, with the snapshots and
start state it actually receives: an abbreviation for stating trace facts. -/
def setupLoopOf (cardId : Nat) (cls : List Checklist) (st : BoardState) : LoopOut :=
  setupChecklists (ensureActivateCardWebhook cardId st).1.storage
    (ensureActivateCardWebhook cardId st).1.todo
    (ensureActivateCardWebhook cardId st).1.done
    (deactivateDoneIfFound (ensureActivateCardWebhook cardId st).1).1 cls

/-- The checklist loop of `StoreInactiveProjectCard`, with the snapshot and
start state it actually receives. -/
def storeLoopOf (cls : List Checklist) (st : BoardState) : BoardState × List Ev :=
  storeChecklists (st.todo ++ st.done) (deactivateDoneIfFound st).1 cls

/-- `trel` errors as the handlers distinguish them: `NotFoundError`
(type-asserted by the engine) versus any other remote failure. -/
inductive TrelErr where
  | notFound
  | remote (code : Nat)
deriving DecidableEq, Repr

/-- Fault injection for the remote calls of `CheckItemChange.Handle` whose
failure the claims are about.  `none` = the call succeeds. -/
structure Faults where
  todoFetch : Option Nat
  doneFetch : Option Nat
  moveCall : Option Nat
deriving DecidableEq, Repr

/-- All remote calls succeed. -/
def noFaults : Faults := ⟨none, none, none⟩

/-- The remote list fetch underlying `trel` `List.FindCard`. -/
def fetchList (fault : Option Nat) (cs : List Card) : Except TrelErr (List Card) :=
  match fault with
  | some e => .error (.remote e)
  | none => .ok cs

/-- `trel` `List.FindCard`: fetch the list's cards, then the first exact name
match; a missing card is a `NotFoundError`, a failed fetch any other error. -/
def FindCardOn (fault : Option Nat) (cs : List Card) (n : String) : Except TrelErr Card :=
  match fetchList fault cs with
  | .error e => .error e
  | .ok l =>
    match findCard l n with
    | some c => .ok c
    | none => .error .notFound

/-- Go's zero value of `trel.Card` (empty id): what `card` holds after
`FindCard` returned an error. -/
def zeroCard : Card := ⟨0, ""⟩

deriving instance DecidableEq for Except

/-- Outcome of an event handler: the Go return value, the board, the trace. -/
structure HOut where
  res : Except TrelErr Unit
  st : BoardState
  tr : List Ev
deriving DecidableEq, Repr

/-- `trel` `Card.Move` as a remote call: the move request is always issued
(and traced); under an injected fault the remote rejects it and the board is
unchanged. -/
def MoveCall (fault : Option Nat) (st : BoardState) (c : Card) (l : Nat) : HOut :=
  match fault with
  | some e => ⟨.error (.remote e), st, [Ev.move c.id l]⟩
  | none => ⟨.ok (), moveCard st c l, [Ev.move c.id l]⟩

/-- `CheckItemChange.Handle` (main.go lines 349-376).  `complete`: find the
card by name in To Do and move it to Done, propagating any error.
`incomplete`: find the card in Done; on `NotFoundError` fall back to To Do
and create the card there only if that lookup also errs; on success move the
card to To Do.  A non-NotFound error from the Done lookup fails Go's type
assertion, so control falls through to `card.Move` on the zero-value card.
Any other state is a no-op. -/
def CheckItemChangeHandle (fl : Faults) (ciName ciState : String) (st : BoardState) : HOut :=
  if ciState = "complete" then
    match FindCardOn fl.todoFetch st.todo ciName with
    | .error e => ⟨.error e, st, [Ev.fetchCards todoId]⟩
    | .ok c =>
      let m := MoveCall fl.moveCall st c doneId
      ⟨m.res, m.st, Ev.fetchCards todoId :: m.tr⟩
  else if ciState = "incomplete" then
    match FindCardOn fl.doneFetch st.done ciName with
    | .error .notFound =>
      match FindCardOn fl.todoFetch st.todo ciName with
      | .ok _ => ⟨.ok (), st, [Ev.fetchCards doneId, Ev.fetchCards todoId]⟩
      | .error _ =>
        ⟨.ok (), (newCard st ciName todoId).1,
          [Ev.fetchCards doneId, Ev.fetchCards todoId, Ev.create ciName todoId]⟩
    | .error (.remote _) =>
      let m := MoveCall fl.moveCall st zeroCard todoId
      ⟨m.res, m.st, Ev.fetchCards doneId :: m.tr⟩
    | .ok c =>
      let m := MoveCall fl.moveCall st c todoId
      ⟨m.res, m.st, Ev.fetchCards doneId :: m.tr⟩
  else ⟨.ok (), st, []⟩

/-- `CheckItems.Find` over one card's checklists: first exact name match. -/
def findCheckItemIn (cls : List Checklist) (n : String) : Option CheckItem :=
  match cls with
  | [] => none
  | cl :: rest =>
    match cl.checkItems.find? (fun ci => decide (ci.name = n)) with
    | some ci => some ci
    | none => findCheckItemIn rest n

/-- `FindListCheckItem` (main.go lines 613-632): scan every card on the
Active list, fetching its checklists, until an item with the name is found.
`activeCards` pairs each Active card with its (remote) checklists. -/
def FindListCheckItem (activeCards : List (Card × List Checklist)) (n : String) :
    Option CheckItem × List Ev :=
  match activeCards with
  | [] => (none, [])
  | (c, cls) :: rest =>
    match findCheckItemIn cls n with
    | some ci => (some ci, [Ev.fetchChecklists c.id])
    | none =>
      ((FindListCheckItem rest n).1,
        Ev.fetchChecklists c.id :: (FindListCheckItem rest n).2)

/-- `ListChange.Handle` (main.go lines 278-322), happy path.  The moved card
is fetched by id; moves to or from Storage are ignored; Projects to Active
activates, Active to Projects deactivates; To Do to Done completes the
matching check item, Done to To Do marks it incomplete (a missing item is a
`NotFoundError`); every other move is a no-op. -/
def HandleListChange (card : Card) (cardChecklists : List Checklist)
    (activeCards : List (Card × List Checklist))
    (beforeName afterName : String) (st : BoardState) : HOut :=
  let trC := [Ev.fetchCard card.id]
  if beforeName = storageName ∨ afterName = storageName then ⟨.ok (), st, trC⟩
  else if afterName = activeName ∧ beforeName = projectsName then
    ⟨.ok (), (SetupActiveProjectCard card.id cardChecklists st).1,
      trC ++ (SetupActiveProjectCard card.id cardChecklists st).2⟩
  else if afterName = projectsName ∧ beforeName = activeName then
    ⟨.ok (), (StoreInactiveProjectCard card.id cardChecklists st).1,
      trC ++ (StoreInactiveProjectCard card.id cardChecklists st).2⟩
  else if afterName = doneName ∧ beforeName = todoName then
    match FindListCheckItem activeCards card.name with
    | (some ci, tr) =>
      ⟨.ok (), st, trC ++ Ev.fetchCards activeId :: tr ++ [Ev.completeItem ci.name]⟩
    | (none, tr) => ⟨.error .notFound, st, trC ++ Ev.fetchCards activeId :: tr⟩
  else if afterName = todoName ∧ beforeName = doneName then
    match FindListCheckItem activeCards card.name with
    | (some ci, tr) =>
      ⟨.ok (), st, trC ++ Ev.fetchCards activeId :: tr ++ [Ev.incompleteItem ci.name]⟩
    | (none, tr) => ⟨.error .notFound, st, trC ++ Ev.fetchCards activeId :: tr⟩
  else ⟨.ok (), st, trC⟩

/-- A `ListChange` payload, reduced to the fields the handler reads. -/
structure ListChangePayload where
  cardId : Nat
  cardName : String
  beforeName : String
  afterName : String
deriving DecidableEq, Repr

/-- A `CheckItemChange` payload, reduced to the fields the handler reads. -/
structure CheckItemPayload where
  ciName : String
  ciState : String
deriving DecidableEq, Repr

/-- An HTTP request body: the raw bytes plus the outcome of attempting
`json.Unmarshal` into each of the two known shapes (`none` = the unmarshal
fails; JSON decoding itself is outside the model). -/
structure RequestBody where
  raw : String
  asListChange : Option ListChangePayload
  asCheckItemChange : Option CheckItemPayload
deriving DecidableEq, Repr

/-- `r.Body` as a one-shot stream: reading returns everything still unread
and leaves the stream drained. -/
structure BodyStream where
  data : String
deriving DecidableEq, Repr

/-- `ioutil.ReadAll`. -/
def readAll (s : BodyStream) : String × BodyStream := (s.data, ⟨""⟩)

/-- A file the fallback recorder wrote: named after `(objType, objID)`, with
the bytes it read. -/
structure RecordedFile where
  objType : String
  objID : String
  content : String
deriving DecidableEq, Repr

/-- `RecordResponse` (main.go lines 378-395): write a temp file keyed by the
object type and id, containing whatever `ReadAll` still yields from `r`. -/
def RecordResponse (objType objID : String) (r : BodyStream) : RecordedFile :=
  ⟨objType, objID, (readAll r).1⟩

/-- Outcome of the `index` handler: the HTTP status code, the board, the
trace, and the file the fallback recorder wrote, if any. -/
structure IndexOut where
  resp : Nat
  st : BoardState
  tr : List Ev
  recorded : Option RecordedFile
deriving DecidableEq, Repr

/-- The POST part of `index` (main.go lines 183-248), given the two path
captures.  The whole body is read once up front; a `list` POST tries the
`ListChange` shape, a `card` POST the `CheckItemChange` shape; a parsed body
is handled (204 on success, 500 on error); anything else goes to
`RecordResponse` - which is handed `r.Body`, already drained by the earlier
`ReadAll`. -/
def indexPost (cardChecklists : List Checklist)
    (activeCards : List (Card × List Checklist)) (fl : Faults)
    (objType objID : String) (b : RequestBody) (st : BoardState) : IndexOut :=
  if objType ≠ "list" ∧ objType ≠ "card" then ⟨404, st, [], none⟩
  else
    let stream := (readAll ⟨b.raw⟩).2
    if objType = "list" then
      match b.asListChange with
      | some p =>
        let card : Card := ⟨p.cardId, p.cardName⟩
        let o := HandleListChange card cardChecklists activeCards p.beforeName p.afterName st
        match o.res with
        | .ok _ => ⟨204, o.st, o.tr, none⟩
        | .error _ => ⟨500, o.st, o.tr, none⟩
      | none => ⟨204, st, [], some (RecordResponse objType objID stream)⟩
    else
      match b.asCheckItemChange with
      | some p =>
        let o := CheckItemChangeHandle fl p.ciName p.ciState st
        match o.res with
        | .ok _ => ⟨204, o.st, o.tr, none⟩
        | .error _ => ⟨500, o.st, o.tr, none⟩
      | none => ⟨204, st, [], some (RecordResponse objType objID stream)⟩

/-- Is the event an effect on the board (a card change, a check-item toggle,
or a webhook operation), as opposed to a pure read? -/
def isEffect : Ev → Bool
  | .move _ _ => true
  | .create _ _ => true
  | .completeItem _ => true
  | .incompleteItem _ => true
  | .createWebhook _ => true
  | .activateWebhook _ => true
  | .deactivateWebhook _ => true
  | _ => false

/-- How many checklist items across all the checklists carry the name. -/
def countItemsNamed (n : String) : List Checklist → Nat
  | [] => 0
  | cl :: rest =>
    cl.checkItems.countP (fun ci => decide (ci.name = n)) + countItemsNamed n rest

/-- Some card named `n` sits on To Do or Done and no Storage-snapshot card
can displace it: every snapshot card with its id also carries name `n`.
The invariant behind the idempotence of activation reconciliation. -/
def Survives (snapS : List Card) (n : String) (st : BoardState) : Prop :=
  ∃ c, (c ∈ st.todo ∨ c ∈ st.done) ∧ c.name = n ∧
    ∀ c' ∈ snapS, c'.id = c.id → c'.name = n

/-! ## Concrete board configurations used by the counterexamples and witnesses -/

/-- A registered, active webhook on the Done list. -/
def exWebhooksDone : List Webhook := [⟨doneId, true⟩]

/-- Storage holding two distinct cards that share the name "A". -/
def exStA : BoardState := ⟨[⟨10, "A"⟩, ⟨11, "A"⟩], [], [], exWebhooksDone, 100⟩

/-- One checklist with the single incomplete item "A". -/
def exClsA : List Checklist := [⟨[⟨"A", "incomplete"⟩]⟩]

/-- To Do holding card "A"; Storage and Done empty. -/
def exStAB : BoardState := ⟨[], [⟨11, "A"⟩], [], exWebhooksDone, 100⟩

/-- One checklist with the incomplete items "A" then "B". -/
def exClsAB : List Checklist := [⟨[⟨"A", "incomplete"⟩, ⟨"B", "incomplete"⟩]⟩]

/-- Storage holding card "A", To Do holding card "B". -/
def exStMove : BoardState := ⟨[⟨10, "A"⟩], [⟨11, "B"⟩], [], exWebhooksDone, 100⟩

/-- To Do holding card "A"; no webhooks. -/
def exStTodoA : BoardState := ⟨[], [⟨11, "A"⟩], [], [], 100⟩

/-- The Done-list fetch fails with a remote 500; a move call fails with 404. -/
def exFaults : Faults := ⟨none, some 500, some 404⟩

/-- A request body matching neither JSON shape. -/
def exBody : RequestBody := ⟨"payload-bytes", none, none⟩

/-- To Do holding card "X"; everything else empty. -/
def exStX : BoardState := ⟨[], [⟨11, "X"⟩], [], [], 100⟩

/-- One checklist with incomplete items "X", "A", "A": two items share the
name "A" and no card named "A" exists anywhere. -/
def exClsXAA : List Checklist :=
  [⟨[⟨"X", "incomplete"⟩, ⟨"A", "incomplete"⟩, ⟨"A", "incomplete"⟩]⟩]

/-- An empty board with a Done webhook. -/
def exStEmpty : BoardState := ⟨[], [], [], exWebhooksDone, 100⟩

/-- A checklist whose single item is complete. -/
def exClsComplete : Checklist := ⟨[⟨"A", "complete"⟩]⟩

/-- A payload moving card "A" from To Do to Storage. -/
def exStoragePayload : ListChangePayload := ⟨7, "A", todoName, storageName⟩

/-! ## Basic lemmas about the board operations -/

theorem findCard_eq_none {cs : List Card} {n : String} :
    findCard cs n = none ↔ ∀ c ∈ cs, c.name ≠ n := by
  simp [findCard, List.find?_eq_none]

theorem findCard_isSome {cs : List Card} {n : String} :
    (findCard cs n).isSome ↔ ∃ c ∈ cs, c.name = n := by
  simp [findCard, List.find?_isSome]

theorem findCard_some_mem {cs : List Card} {n : String} {c : Card}
    (h : findCard cs n = some c) : c ∈ cs :=
  List.mem_of_find?_eq_some h

theorem findCard_some_name {cs : List Card} {n : String} {c : Card}
    (h : findCard cs n = some c) : c.name = n := by
  have := List.find?_some h
  simpa using this

theorem moveCard_todoId (st : BoardState) (c : Card) :
    moveCard st c todoId =
      ⟨removeCard st.storage c.id, removeCard st.todo c.id ++ [⟨c.id, c.name⟩],
        removeCard st.done c.id, st.webhooks, st.nextId⟩ := by
  simp [moveCard, todoId, storageId, doneId]

theorem moveCard_doneId (st : BoardState) (c : Card) :
    moveCard st c doneId =
      ⟨removeCard st.storage c.id, removeCard st.todo c.id,
        removeCard st.done c.id ++ [⟨c.id, c.name⟩], st.webhooks, st.nextId⟩ := by
  simp [moveCard, todoId, storageId, doneId]

theorem moveCard_storageId (st : BoardState) (c : Card) :
    moveCard st c storageId =
      ⟨removeCard st.storage c.id ++ [⟨c.id, c.name⟩], removeCard st.todo c.id,
        removeCard st.done c.id, st.webhooks, st.nextId⟩ := by
  simp [moveCard, todoId, storageId, doneId]

theorem newCard_todoId (st : BoardState) (n : String) :
    (newCard st n todoId).1 =
      ⟨st.storage, st.todo ++ [⟨st.nextId, n⟩], st.done, st.webhooks, st.nextId + 1⟩ := by
  simp [newCard, todoId, doneId]

theorem newCard_doneId (st : BoardState) (n : String) :
    (newCard st n doneId).1 =
      ⟨st.storage, st.todo, st.done ++ [⟨st.nextId, n⟩], st.webhooks, st.nextId + 1⟩ := by
  simp [newCard, todoId, doneId]

theorem targetList_cases (ci : CheckItem) :
    targetList ci = todoId ∨ targetList ci = doneId := by
  unfold targetList
  split
  · exact Or.inr rfl
  · exact Or.inl rfl

theorem moveCard_webhooks (st : BoardState) (c : Card) (l : Nat) :
    (moveCard st c l).webhooks = st.webhooks := by
  unfold moveCard
  split
  · rfl
  next =>
    split
    · rfl
    next =>
      split
      · rfl
      · rfl

theorem newCard_webhooks (st : BoardState) (n : String) (l : Nat) :
    (newCard st n l).1.webhooks = st.webhooks := by
  unfold newCard
  split
  · rfl
  next =>
    split
    · rfl
    · rfl

theorem newCard_storage (st : BoardState) (n : String) (l : Nat) :
    (newCard st n l).1.storage = st.storage := by
  unfold newCard
  split
  · rfl
  next =>
    split
    · rfl
    · rfl

theorem ensure_storage (i : Nat) (st : BoardState) :
    (ensureActivateCardWebhook i st).1.storage = st.storage := by
  unfold ensureActivateCardWebhook
  split <;> rfl

theorem ensure_todo (i : Nat) (st : BoardState) :
    (ensureActivateCardWebhook i st).1.todo = st.todo := by
  unfold ensureActivateCardWebhook
  split <;> rfl

theorem ensure_done (i : Nat) (st : BoardState) :
    (ensureActivateCardWebhook i st).1.done = st.done := by
  unfold ensureActivateCardWebhook
  split <;> rfl

theorem ensure_nextId (i : Nat) (st : BoardState) :
    (ensureActivateCardWebhook i st).1.nextId = st.nextId := by
  unfold ensureActivateCardWebhook
  split <;> rfl

theorem ensure_tr_webhook (i : Nat) (st : BoardState) :
    (ensureActivateCardWebhook i st).2.all (isWebhookOn i) = true := by
  unfold ensureActivateCardWebhook
  split <;> simp [isWebhookOn]

theorem deact_storage (st : BoardState) : (deactivateDoneIfFound st).1.storage = st.storage := by
  unfold deactivateDoneIfFound
  cases h : findWebhook st.webhooks doneId <;> simp [h]

theorem deact_todo (st : BoardState) : (deactivateDoneIfFound st).1.todo = st.todo := by
  unfold deactivateDoneIfFound
  cases h : findWebhook st.webhooks doneId <;> simp [h]

theorem deact_done (st : BoardState) : (deactivateDoneIfFound st).1.done = st.done := by
  unfold deactivateDoneIfFound
  cases h : findWebhook st.webhooks doneId <;> simp [h]

theorem deact_nextId (st : BoardState) : (deactivateDoneIfFound st).1.nextId = st.nextId := by
  unfold deactivateDoneIfFound
  cases h : findWebhook st.webhooks doneId <;> simp [h]

theorem act_storage (st : BoardState) : (activateDoneIfFound st).1.storage = st.storage := by
  unfold activateDoneIfFound
  cases h : findWebhook st.webhooks doneId <;> simp [h]

theorem act_todo (st : BoardState) : (activateDoneIfFound st).1.todo = st.todo := by
  unfold activateDoneIfFound
  cases h : findWebhook st.webhooks doneId <;> simp [h]

theorem act_done (st : BoardState) : (activateDoneIfFound st).1.done = st.done := by
  unfold activateDoneIfFound
  cases h : findWebhook st.webhooks doneId <;> simp [h]

theorem allComplete_of_forall (cl : Checklist)
    (h : ∀ ci ∈ cl.checkItems, ci.state = "complete") : allComplete cl = true := by
  unfold allComplete
  rw [Bool.not_eq_true']
  rw [List.any_eq_false]
  intro ci hci
  rw [h ci hci]
  decide

theorem setup_checklists_skip (s t d : List Card) (st : BoardState) (cl : Checklist)
    (rest : List Checklist) (h : allComplete cl = true) :
    setupChecklists s t d st (cl :: rest) = setupChecklists s t d st rest := by
  simp [setupChecklists, h]

theorem setup_append_skip (s t d : List Card) (cl : Checklist) (h : allComplete cl = true)
    (pre : List Checklist) : ∀ (st : BoardState) (post : List Checklist),
    setupChecklists s t d st (pre ++ cl :: post) = setupChecklists s t d st (pre ++ post) := by
  induction pre with
  | nil =>
    intro st post
    simpa using setup_checklists_skip s t d st cl post h
  | cons cl' pre' ih =>
    intro st post
    by_cases h' : allComplete cl' = true
    · rw [List.cons_append, List.cons_append,
        setup_checklists_skip s t d st cl' _ h', setup_checklists_skip s t d st cl' _ h']
      exact ih st post
    · rw [List.cons_append, List.cons_append]
      rw [setupChecklists, setupChecklists]
      simp only [h', if_false]
      cases h2 : (setupItems s t d st cl'.checkItems).early <;> simp [h2, ih]

theorem isWebhookOn_false_of_change {e : Ev} (h : isCardChange e = true) (i : Nat) :
    isWebhookOn i e = false := by
  cases e <;> simp_all [isCardChange, isMove, isCreate, isWebhookOn]

theorem setupItem_tr_change (s t d : List Card) (st : BoardState) (ci : CheckItem) :
    ∀ e ∈ (setupItem s t d st ci).tr, isCardChange e = true := by
  intro e he
  unfold setupItem at he
  split at he
  · split at he
    · simp at he
    · split at he
      · simp at he
      · simp only [List.mem_singleton] at he
        subst he
        simp [isCardChange, isCreate]
  · simp only [List.mem_singleton] at he
    subst he
    simp [isCardChange, isMove]

theorem setupItems_tr_change (s t d : List Card) :
    ∀ (items : List CheckItem) (st : BoardState),
    ∀ e ∈ (setupItems s t d st items).tr, isCardChange e = true := by
  intro items
  induction items with
  | nil => intro st e he; simp [setupItems] at he
  | cons ci rest ih =>
    intro st e he
    unfold setupItems at he
    cases h : (setupItem s t d st ci).early
    · simp [h] at he
      rcases he with he | he
      · exact setupItem_tr_change s t d st ci e he
      · exact ih _ e he
    · simp [h] at he
      exact setupItem_tr_change s t d st ci e he

theorem setupChecklists_tr_change (s t d : List Card) :
    ∀ (cls : List Checklist) (st : BoardState),
    ∀ e ∈ (setupChecklists s t d st cls).tr, isCardChange e = true := by
  intro cls
  induction cls with
  | nil => intro st e he; simp [setupChecklists] at he
  | cons cl rest ih =>
    intro st e he
    unfold setupChecklists at he
    by_cases hc : allComplete cl = true
    · rw [if_pos hc] at he
      exact ih st e he
    · rw [if_neg hc] at he
      cases h : (setupItems s t d st cl.checkItems).early
      · simp [h] at he
        rcases he with he | he
        · exact setupItems_tr_change s t d cl.checkItems st e he
        · exact ih _ e he
      · simp [h] at he
        exact setupItems_tr_change s t d cl.checkItems st e he

theorem setupItem_webhooks (s t d : List Card) (st : BoardState) (ci : CheckItem) :
    (setupItem s t d st ci).st.webhooks = st.webhooks := by
  unfold setupItem
  split
  · split
    · rfl
    · split
      · rfl
      · exact newCard_webhooks st ci.name (targetList ci)
  · exact moveCard_webhooks st _ (targetList ci)

theorem setupItems_webhooks (s t d : List Card) :
    ∀ (items : List CheckItem) (st : BoardState),
    (setupItems s t d st items).st.webhooks = st.webhooks := by
  intro items
  induction items with
  | nil => intro st; rfl
  | cons ci rest ih =>
    intro st
    unfold setupItems
    cases h : (setupItem s t d st ci).early
    · simp only [h]
      simp only [Bool.false_eq_true, if_false]
      rw [ih, setupItem_webhooks]
    · simp only [h, if_true]
      exact setupItem_webhooks s t d st ci

theorem setupChecklists_webhooks (s t d : List Card) :
    ∀ (cls : List Checklist) (st : BoardState),
    (setupChecklists s t d st cls).st.webhooks = st.webhooks := by
  intro cls
  induction cls with
  | nil => intro st; rfl
  | cons cl rest ih =>
    intro st
    unfold setupChecklists
    by_cases hc : allComplete cl = true
    · rw [if_pos hc]; exact ih st
    · rw [if_neg hc]
      cases h : (setupItems s t d st cl.checkItems).early
      · simp only [h]
        simp only [Bool.false_eq_true, if_false]
        rw [ih, setupItems_webhooks]
      · simp only [h, if_true]
        exact setupItems_webhooks s t d cl.checkItems st

theorem storeItems_webhooks (snap : List Card) :
    ∀ (items : List CheckItem) (st : BoardState),
    (storeItems snap st items).1.webhooks = st.webhooks := by
  intro items
  induction items with
  | nil => intro st; rfl
  | cons ci rest ih =>
    intro st
    unfold storeItems
    cases h : findCard snap ci.name
    · exact ih st
    · simp only []
      rw [ih, moveCard_webhooks]

theorem storeChecklists_webhooks (snap : List Card) :
    ∀ (cls : List Checklist) (st : BoardState),
    (storeChecklists snap st cls).1.webhooks = st.webhooks := by
  intro cls
  induction cls with
  | nil => intro st; rfl
  | cons cl rest ih =>
    intro st
    unfold storeChecklists
    simp only []
    rw [ih, storeItems_webhooks]

theorem storeItems_tr_change (snap : List Card) :
    ∀ (items : List CheckItem) (st : BoardState),
    ∀ e ∈ (storeItems snap st items).2, isCardChange e = true := by
  intro items
  induction items with
  | nil => intro st e he; simp [storeItems] at he
  | cons ci rest ih =>
    intro st e he
    unfold storeItems at he
    cases h : findCard snap ci.name <;> rw [h] at he
    · exact ih st e he
    · simp only [List.mem_cons] at he
      rcases he with rfl | he
      · simp [isCardChange, isMove]
      · exact ih _ e he

theorem storeChecklists_tr_change (snap : List Card) :
    ∀ (cls : List Checklist) (st : BoardState),
    ∀ e ∈ (storeChecklists snap st cls).2, isCardChange e = true := by
  intro cls
  induction cls with
  | nil => intro st e he; simp [storeChecklists] at he
  | cons cl rest ih =>
    intro st e he
    unfold storeChecklists at he
    simp only [List.mem_append] at he
    rcases he with he | he
    · exact storeItems_tr_change snap cl.checkItems st e he
    · exact ih _ e he

theorem setActive_entry_idModel (w : Webhook) (j : Nat) (b : Bool) :
    (if w.idModel = j then (⟨w.idModel, b⟩ : Webhook) else w).idModel = w.idModel := by
  split <;> rfl

theorem hasWebhook_setActive (i j : Nat) (b : Bool) (ws : List Webhook) :
    HasWebhook i (setWebhookActive ws j b) = HasWebhook i ws := by
  rw [Bool.eq_iff_iff]
  simp only [HasWebhook, findWebhook, List.find?_isSome, setWebhookActive, List.mem_map,
    decide_eq_true_eq]
  constructor
  · rintro ⟨w, ⟨w0, hw0, rfl⟩, hid⟩
    refine ⟨w0, hw0, ?_⟩
    rwa [setActive_entry_idModel] at hid
  · rintro ⟨w0, hw0, hid⟩
    refine ⟨_, ⟨w0, hw0, rfl⟩, ?_⟩
    rwa [setActive_entry_idModel]

theorem hasWebhook_append_left (i : Nat) (ws extra : List Webhook)
    (h : HasWebhook i ws = true) : HasWebhook i (ws ++ extra) = true := by
  simp only [HasWebhook, findWebhook, List.find?_isSome, List.mem_append,
    decide_eq_true_eq] at h ⊢
  rcases h with ⟨w, hw, hid⟩
  exact ⟨w, Or.inl hw, hid⟩

theorem ensure_hasDone (cardId : Nat) (st : BoardState)
    (h : HasWebhook doneId st.webhooks = true) :
    HasWebhook doneId (ensureActivateCardWebhook cardId st).1.webhooks = true := by
  unfold ensureActivateCardWebhook
  split
  · show HasWebhook doneId (setWebhookActive st.webhooks cardId true) = true
    rwa [hasWebhook_setActive]
  · show HasWebhook doneId
      (setWebhookActive (st.webhooks ++ [⟨cardId, true⟩]) cardId true) = true
    rw [hasWebhook_setActive]
    exact hasWebhook_append_left _ _ _ h

theorem deact_hasDone (st : BoardState) :
    HasWebhook doneId (deactivateDoneIfFound st).1.webhooks =
      HasWebhook doneId st.webhooks := by
  unfold deactivateDoneIfFound
  cases h : findWebhook st.webhooks doneId <;> simp [h, hasWebhook_setActive]

theorem deact_tr_of_has (st : BoardState) (h : HasWebhook doneId st.webhooks = true) :
    (deactivateDoneIfFound st).2 = [Ev.deactivateWebhook doneId] := by
  unfold deactivateDoneIfFound
  cases h' : findWebhook st.webhooks doneId
  · rw [HasWebhook, h'] at h
    simp at h
  · simp

theorem act_tr_of_has (st : BoardState) (h : HasWebhook doneId st.webhooks = true) :
    (activateDoneIfFound st).2 = [Ev.activateWebhook doneId] := by
  unfold activateDoneIfFound
  cases h' : findWebhook st.webhooks doneId
  · rw [HasWebhook, h'] at h
    simp at h
  · simp

theorem deact_tr_small (st : BoardState) :
    (deactivateDoneIfFound st).2 = [] ∨
      (deactivateDoneIfFound st).2 = [Ev.deactivateWebhook doneId] := by
  unfold deactivateDoneIfFound
  cases h : findWebhook st.webhooks doneId
  · exact Or.inl rfl
  · exact Or.inr rfl

theorem act_tr_small (st : BoardState) :
    (activateDoneIfFound st).2 = [] ∨
      (activateDoneIfFound st).2 = [Ev.activateWebhook doneId] := by
  unfold activateDoneIfFound
  cases h : findWebhook st.webhooks doneId
  · exact Or.inl rfl
  · exact Or.inr rfl

theorem ensure_tr_not_change (i : Nat) (st : BoardState) :
    (ensureActivateCardWebhook i st).2.all (fun e => !(isCardChange e)) = true := by
  unfold ensureActivateCardWebhook
  split <;> simp [isCardChange, isMove, isCreate]

theorem setup_tr_struct (cardId : Nat) (cls : List Checklist) (st : BoardState)
    (hwh : HasWebhook doneId st.webhooks = true) :
    (SetupActiveProjectCard cardId cls st).2 =
      ((ensureActivateCardWebhook cardId st).2 ++
        [Ev.fetchChecklists cardId, Ev.fetchCards storageId, Ev.fetchCards todoId,
          Ev.fetchCards doneId]) ++
      Ev.deactivateWebhook doneId ::
        ((setupLoopOf cardId cls st).tr ++
          (if (setupLoopOf cardId cls st).early = true then []
            else [Ev.activateWebhook doneId])) := by
  have hwh1 := ensure_hasDone cardId st hwh
  have htr2 := deact_tr_of_has _ hwh1
  have htr4 : (activateDoneIfFound (setupLoopOf cardId cls st).st).2 =
      [Ev.activateWebhook doneId] := by
    apply act_tr_of_has
    rw [setupLoopOf, setupChecklists_webhooks, deact_hasDone]
    exact hwh1
  simp only [setupLoopOf] at htr4
  simp only [SetupActiveProjectCard, setupLoopOf]
  split
  next he =>
    rw [htr2]
    simp [List.append_assoc]
  next he =>
    rw [htr2, htr4]
    simp [List.append_assoc]

theorem store_tr_struct (cardId : Nat) (cls : List Checklist) (st : BoardState)
    (hwh : HasWebhook doneId st.webhooks = true) :
    (StoreInactiveProjectCard cardId cls st).2 =
      [Ev.fetchChecklists cardId, Ev.fetchCards todoId, Ev.fetchCards doneId] ++
      Ev.deactivateWebhook doneId ::
        ((storeLoopOf cls st).2 ++
          Ev.activateWebhook doneId ::
            (if HasWebhook cardId
                (activateDoneIfFound (storeLoopOf cls st).1).1.webhooks = true
              then [Ev.deactivateWebhook cardId] else [])) := by
  have htr2 := deact_tr_of_has _ hwh
  have htr4 : (activateDoneIfFound (storeLoopOf cls st).1).2 =
      [Ev.activateWebhook doneId] := by
    apply act_tr_of_has
    rw [storeLoopOf, storeChecklists_webhooks, deact_hasDone]
    exact hwh
  simp only [storeLoopOf] at htr4 ⊢
  simp only [StoreInactiveProjectCard]
  cases hfw : findWebhook
      (activateDoneIfFound
        (storeChecklists (st.todo ++ st.done) (deactivateDoneIfFound st).1 cls).1).1.webhooks
      cardId
  · rw [htr2, htr4]
    have hh : HasWebhook cardId
        (activateDoneIfFound
          (storeChecklists (st.todo ++ st.done) (deactivateDoneIfFound st).1 cls).1).1.webhooks =
        false := by
      rw [HasWebhook, hfw]
      rfl
    simp [hh, List.append_assoc]
  · rw [htr2, htr4]
    have hh : HasWebhook cardId
        (activateDoneIfFound
          (storeChecklists (st.todo ++ st.done) (deactivateDoneIfFound st).1 cls).1).1.webhooks =
        true := by
      rw [HasWebhook, hfw]
      rfl
    simp [hh, List.append_assoc]

theorem ensure_tr_small (i : Nat) (st : BoardState) :
    (ensureActivateCardWebhook i st).2 = [Ev.activateWebhook i] ∨
      (ensureActivateCardWebhook i st).2 = [Ev.createWebhook i, Ev.activateWebhook i] := by
  unfold ensureActivateCardWebhook
  split
  · exact Or.inl rfl
  · exact Or.inr rfl

theorem allComplete_false_of_ex (cl : Checklist)
    (h : ∃ ci ∈ cl.checkItems, ci.state = "incomplete") : allComplete cl = false := by
  unfold allComplete
  rw [Bool.not_eq_false']
  rw [List.any_eq_true]
  rcases h with ⟨ci, hci, hst⟩
  exact ⟨ci, hci, by simp [hst]⟩

theorem setupItems_create_count (s t d : List Card) (items : List CheckItem) :
    ∀ stX : BoardState,
    (∀ ci ∈ items, findCard s ci.name = none ∧ findCard t ci.name = none ∧
      findCard d ci.name = none) →
    (setupItems s t d stX items).early = false ∧
    ∀ n, (setupItems s t d stX items).tr.countP (isCreateNamed n) =
      items.countP (fun ci => decide (ci.name = n)) := by
  induction items with
  | nil => intro stX _; exact ⟨rfl, fun n => rfl⟩
  | cons ci rest ih =>
    intro stX h
    have hci := h ci (List.mem_cons_self ci rest)
    have hitem : setupItem s t d stX ci =
        ⟨(newCard stX ci.name (targetList ci)).1,
          [Ev.create ci.name (targetList ci)], false⟩ := by
      unfold setupItem
      rw [hci.1, hci.2.1, hci.2.2]
      rfl
    have hrest := ih (newCard stX ci.name (targetList ci)).1
      (fun c hc => h c (List.mem_cons_of_mem ci hc))
    constructor
    · unfold setupItems
      rw [hitem]
      simpa using hrest.1
    · intro n
      unfold setupItems
      rw [hitem]
      simp only [Bool.false_eq_true, if_false, List.countP_cons, List.countP_append]
      rw [hrest.2 n]
      simp [isCreateNamed, List.countP_cons, Nat.add_comm]

theorem setupChecklists_create_count (s t d : List Card) (cls : List Checklist) :
    ∀ stX : BoardState,
    (∀ cl ∈ cls, allComplete cl = false) →
    (∀ cl ∈ cls, ∀ ci ∈ cl.checkItems, findCard s ci.name = none ∧
      findCard t ci.name = none ∧ findCard d ci.name = none) →
    (setupChecklists s t d stX cls).early = false ∧
    ∀ n, (setupChecklists s t d stX cls).tr.countP (isCreateNamed n) =
      countItemsNamed n cls := by
  induction cls with
  | nil => intro stX _ _; exact ⟨rfl, fun n => rfl⟩
  | cons cl rest ih =>
    intro stX h1 h2
    have hcl := h1 cl (List.mem_cons_self cl rest)
    have hitems := setupItems_create_count s t d cl.checkItems stX
      (h2 cl (List.mem_cons_self cl rest))
    have hrest := ih (setupItems s t d stX cl.checkItems).st
      (fun c hc => h1 c (List.mem_cons_of_mem cl hc))
      (fun c hc => h2 c (List.mem_cons_of_mem cl hc))
    constructor
    · unfold setupChecklists
      rw [hcl]
      simp only [Bool.false_eq_true, if_false, hitems.1]
      simpa using hrest.1
    · intro n
      unfold setupChecklists
      rw [hcl]
      simp only [Bool.false_eq_true, if_false, hitems.1, List.countP_append]
      rw [hitems.2 n, hrest.2 n]
      rfl

theorem ne_fetch_of_change {e : Ev} (h : isCardChange e = true) (j : Nat) :
    (e = Ev.fetchCards j) = False := by
  cases e <;> simp_all [isCardChange, isMove, isCreate]

theorem not_create_of_change_name {e : Ev} (h : isCardChange e = false) (n : String) :
    isCreateNamed n e = false := by
  cases e <;> simp_all [isCardChange, isMove, isCreate, isCreateNamed]

theorem not_fetchCards_of_change {e : Ev} (h : isCardChange e = true) :
    isFetchCards e = false := by
  cases e <;> simp_all [isCardChange, isMove, isCreate, isFetchCards]

theorem fetch_pred_false_of_change {e : Ev} (h : isCardChange e = true) (j : Nat) :
    decide (e = Ev.fetchCards j) = false := by
  simp [ne_fetch_of_change h j]

theorem mem_removeCard {cs : List Card} {c : Card} {i : Nat} (h : c ∈ cs)
    (hne : c.id ≠ i) : c ∈ removeCard cs i :=
  List.mem_filter.mpr ⟨h, by simp [hne]⟩

theorem moveCard_storage_target (stX : BoardState) (c : Card) (ci : CheckItem) :
    (moveCard stX c (targetList ci)).storage = removeCard stX.storage c.id := by
  rcases targetList_cases ci with h | h <;> rw [h]
  · rw [moveCard_todoId]
  · rw [moveCard_doneId]

theorem setupItem_storage_subset (s t d : List Card) (stX : BoardState) (ci : CheckItem) :
    ∀ c' ∈ (setupItem s t d stX ci).st.storage, c' ∈ stX.storage := by
  intro c' hc'
  unfold setupItem at hc'
  split at hc'
  · split at hc'
    · exact hc'
    · split at hc'
      · exact hc'
      · rw [newCard_storage] at hc'
        exact hc'
  · rw [moveCard_storage_target] at hc'
    exact List.mem_of_mem_filter hc'

theorem setupItems_storage_subset (s t d : List Card) (items : List CheckItem) :
    ∀ stX : BoardState, ∀ c' ∈ (setupItems s t d stX items).st.storage,
      c' ∈ stX.storage := by
  induction items with
  | nil => intro stX c' hc'; exact hc'
  | cons ci rest ih =>
    intro stX c' hc'
    unfold setupItems at hc'
    cases h : (setupItem s t d stX ci).early <;> simp [h] at hc'
    · exact setupItem_storage_subset s t d stX ci c'
        (ih (setupItem s t d stX ci).st c' hc')
    · exact setupItem_storage_subset s t d stX ci c' hc'

theorem setupChecklists_storage_subset (s t d : List Card) (cls : List Checklist) :
    ∀ stX : BoardState, ∀ c' ∈ (setupChecklists s t d stX cls).st.storage,
      c' ∈ stX.storage := by
  induction cls with
  | nil => intro stX c' hc'; exact hc'
  | cons cl rest ih =>
    intro stX c' hc'
    unfold setupChecklists at hc'
    by_cases hcl : allComplete cl = true
    · rw [if_pos hcl] at hc'
      exact ih stX c' hc'
    · rw [if_neg hcl] at hc'
      cases h : (setupItems s t d stX cl.checkItems).early <;> simp [h] at hc'
      · exact setupItems_storage_subset s t d cl.checkItems stX c'
          (ih (setupItems s t d stX cl.checkItems).st c' hc')
      · exact setupItems_storage_subset s t d cl.checkItems stX c' hc'

theorem survives_setupItem (s t d : List Card) (stX : BoardState) (ci : CheckItem)
    {n : String} (h : Survives s n stX) : Survives s n (setupItem s t d stX ci).st := by
  unfold setupItem
  split
  · split
    · exact h
    · split
      · exact h
      · obtain ⟨cc, hmem, hname, hcond⟩ := h
        refine ⟨cc, ?_, hname, hcond⟩
        rcases targetList_cases ci with h1 | h1 <;> rw [h1]
        · rw [newCard_todoId]
          rcases hmem with hm | hm
          · exact Or.inl (List.mem_append_left _ hm)
          · exact Or.inr hm
        · rw [newCard_doneId]
          rcases hmem with hm | hm
          · exact Or.inl hm
          · exact Or.inr (List.mem_append_left _ hm)
  · next c' hf =>
    obtain ⟨cc, hmem, hname, hcond⟩ := h
    by_cases hid : c'.id = cc.id
    · have hc'mem := findCard_some_mem hf
      have hc'name : c'.name = n := hcond c' hc'mem hid
      refine ⟨⟨c'.id, c'.name⟩, ?_, hc'name, ?_⟩
      · rcases targetList_cases ci with h1 | h1 <;> rw [h1]
        · rw [moveCard_todoId]
          exact Or.inl (List.mem_append_right _ (List.mem_singleton_self _))
        · rw [moveCard_doneId]
          exact Or.inr (List.mem_append_right _ (List.mem_singleton_self _))
      · intro c'' hc'' hidEq
        exact hcond c'' hc'' (by rw [hidEq, hid])
    · have hccne : cc.id ≠ c'.id := fun hEq => hid hEq.symm
      refine ⟨cc, ?_, hname, hcond⟩
      rcases targetList_cases ci with h1 | h1 <;> rw [h1]
      · rw [moveCard_todoId]
        rcases hmem with hm | hm
        · exact Or.inl (List.mem_append_left _ (mem_removeCard hm hccne))
        · exact Or.inr (mem_removeCard hm hccne)
      · rw [moveCard_doneId]
        rcases hmem with hm | hm
        · exact Or.inl (mem_removeCard hm hccne)
        · exact Or.inr (List.mem_append_left _ (mem_removeCard hm hccne))

theorem survives_setupItems (s t d : List Card) (items : List CheckItem) {n : String} :
    ∀ stX : BoardState, Survives s n stX →
      Survives s n (setupItems s t d stX items).st := by
  induction items with
  | nil => intro stX h; exact h
  | cons ci rest ih =>
    intro stX h
    unfold setupItems
    cases hE : (setupItem s t d stX ci).early <;> simp [hE]
    · exact ih (setupItem s t d stX ci).st (survives_setupItem s t d stX ci h)
    · exact survives_setupItem s t d stX ci h

theorem survives_setupChecklists (s t d : List Card) (cls : List Checklist) {n : String} :
    ∀ stX : BoardState, Survives s n stX →
      Survives s n (setupChecklists s t d stX cls).st := by
  induction cls with
  | nil => intro stX h; exact h
  | cons cl rest ih =>
    intro stX h
    unfold setupChecklists
    by_cases hcl : allComplete cl = true
    · rw [if_pos hcl]
      exact ih stX h
    · rw [if_neg hcl]
      cases hE : (setupItems s t d stX cl.checkItems).early <;> simp [hE]
      · exact ih (setupItems s t d stX cl.checkItems).st
          (survives_setupItems s t d cl.checkItems stX h)
      · exact survives_setupItems s t d cl.checkItems stX h

theorem setupChecklists_cons_st (s t d : List Card) (stA : BoardState) (cl : Checklist)
    (rest : List Checklist) (hc : allComplete cl = false) :
    (setupChecklists s t d stA (cl :: rest)).st =
      if (setupItems s t d stA cl.checkItems).early = true
      then (setupItems s t d stA cl.checkItems).st
      else (setupChecklists s t d (setupItems s t d stA cl.checkItems).st rest).st := by
  rw [setupChecklists, hc]
  cases h2 : (setupItems s t d stA cl.checkItems).early <;> simp [h2]

theorem setupChecklists_cons_full (s t d : List Card) (stA : BoardState) (cl : Checklist)
    (rest : List Checklist) (hc : allComplete cl = false)
    (hearly : (setupItems s t d stA cl.checkItems).early = true) :
    setupChecklists s t d stA (cl :: rest) =
      ⟨(setupItems s t d stA cl.checkItems).st,
        (setupItems s t d stA cl.checkItems).tr, true⟩ := by
  rw [setupChecklists, hc]
  simp [hearly]

/-- Running the activation checklist loop a second time, over the memberships
left by a first run from a board whose Storage has pairwise-distinct card
names and ids below the freshness counter, does nothing: it returns its start
state untouched with an empty trace. -/
theorem setupChecklists_idem (cls : List Checklist) :
    ∀ (s t d : List Card) (stA : BoardState),
    stA.storage = s → stA.todo = t → stA.done = d →
    (s.map Card.name).Nodup → (s.map Card.id).Nodup →
    (∀ c ∈ s, c.id < stA.nextId) →
    ∀ st2 : BoardState,
    (setupChecklists (setupChecklists s t d stA cls).st.storage
        (setupChecklists s t d stA cls).st.todo
        (setupChecklists s t d stA cls).st.done st2 cls).st = st2 ∧
    (setupChecklists (setupChecklists s t d stA cls).st.storage
        (setupChecklists s t d stA cls).st.todo
        (setupChecklists s t d stA cls).st.done st2 cls).tr = [] := by
  induction cls with
  | nil => intro s t d stA _ _ _ _ _ _ st2; exact ⟨rfl, rfl⟩
  | cons cl rest ih =>
    intro s t d stA hS hT hD hnames hids hfresh st2
    by_cases hcl : allComplete cl = true
    · rw [setup_checklists_skip s t d stA cl rest hcl,
        setup_checklists_skip _ _ _ st2 cl rest hcl]
      exact ih s t d stA hS hT hD hnames hids hfresh st2
    · have hc' : allComplete cl = false := by
        cases hcb : allComplete cl
        · rfl
        · exact absurd hcb hcl
      rcases hex : cl.checkItems with _ | ⟨i1, restI⟩
      · exfalso
        apply hcl
        rw [allComplete, hex]
        rfl
      -- the second run stops at the first item of `cl` and changes nothing
      have finish : ∀ G : BoardState,
          (∀ c'' ∈ G.storage, c''.name ≠ i1.name) →
          (∃ cc, (cc ∈ G.todo ∨ cc ∈ G.done) ∧ cc.name = i1.name) →
          (setupChecklists G.storage G.todo G.done st2 (cl :: rest)).st = st2 ∧
          (setupChecklists G.storage G.todo G.done st2 (cl :: rest)).tr = [] := by
        intro G hGs hGsurv
        have hGsn : findCard G.storage i1.name = none := findCard_eq_none.mpr hGs
        have hitem : setupItem G.storage G.todo G.done st2 i1 = ⟨st2, [], true⟩ := by
          unfold setupItem
          rw [hGsn]
          by_cases hT2 : (findCard G.todo i1.name).isSome = true
          · simp [hT2]
          · have hT2n : findCard G.todo i1.name = none :=
              Option.not_isSome_iff_eq_none.mp hT2
            have hD2 : (findCard G.done i1.name).isSome = true := by
              obtain ⟨cc, hmem, hname⟩ := hGsurv
              rcases hmem with hm | hm
              · exact absurd hname (findCard_eq_none.mp hT2n cc hm)
              · exact findCard_isSome.mpr ⟨cc, hm, hname⟩
            simp [hT2, hD2]
        have hitems : setupItems G.storage G.todo G.done st2 cl.checkItems =
            ⟨st2, [], true⟩ := by
          rw [hex]
          simp only [setupItems]
          rw [hitem]
          simp
        rw [setupChecklists_cons_full G.storage G.todo G.done st2 cl rest hc'
          (by rw [hitems]), hitems]
        exact ⟨rfl, rfl⟩
      have glue : ∀ (stB : BoardState) (trB : List Ev),
          setupItem s t d stA i1 = ⟨stB, trB, false⟩ →
          (∀ c'' ∈ stB.storage, c''.name ≠ i1.name) →
          Survives s i1.name stB →
          (setupChecklists (setupChecklists s t d stA (cl :: rest)).st.storage
              (setupChecklists s t d stA (cl :: rest)).st.todo
              (setupChecklists s t d stA (cl :: rest)).st.done st2 (cl :: rest)).st = st2 ∧
          (setupChecklists (setupChecklists s t d stA (cl :: rest)).st.storage
              (setupChecklists s t d stA (cl :: rest)).st.todo
              (setupChecklists s t d stA (cl :: rest)).st.done st2 (cl :: rest)).tr = [] := by
        intro stB trB ho1 hnaB hsurvB
        have hItemsSt : (setupItems s t d stA (i1 :: restI)).st =
            (setupItems s t d stB restI).st := by
          simp only [setupItems]
          rw [ho1]
          simp
        have hFna : ∀ c'' ∈ (setupChecklists s t d stA (cl :: rest)).st.storage,
            c''.name ≠ i1.name := by
          intro c'' hc''
          apply hnaB c''
          rw [setupChecklists_cons_st s t d stA cl rest hc', hex] at hc''
          revert hc''
          cases hE2 : (setupItems s t d stA (i1 :: restI)).early <;> intro hc''
          · simp only [hE2, Bool.false_eq_true, if_false] at hc''
            have h1 := setupChecklists_storage_subset s t d rest _ c'' hc''
            rw [hItemsSt] at h1
            exact setupItems_storage_subset s t d restI stB c'' h1
          · simp only [hE2, if_true] at hc''
            rw [hItemsSt] at hc''
            exact setupItems_storage_subset s t d restI stB c'' hc''
        have hFsurv : Survives s i1.name (setupChecklists s t d stA (cl :: rest)).st := by
          rw [setupChecklists_cons_st s t d stA cl rest hc', hex]
          cases hE2 : (setupItems s t d stA (i1 :: restI)).early
          · simp only [hE2, Bool.false_eq_true, if_false]
            apply survives_setupChecklists
            rw [hItemsSt]
            exact survives_setupItems s t d restI stB hsurvB
          · simp only [hE2, if_true]
            rw [hItemsSt]
            exact survives_setupItems s t d restI stB hsurvB
        obtain ⟨cc, hmem, hname, _⟩ := hFsurv
        exact finish _ hFna ⟨cc, hmem, hname⟩
      cases hf : findCard s i1.name
      · cases hTd : (findCard t i1.name).isSome
        · cases hDd : (findCard d i1.name).isSome
          · -- nowhere: the first run creates the card in the target list
            have ho1 : setupItem s t d stA i1 =
                ⟨(newCard stA i1.name (targetList i1)).1,
                  [Ev.create i1.name (targetList i1)], false⟩ := by
              unfold setupItem
              rw [hf]
              simp [hTd, hDd]
            apply glue _ _ ho1
            · intro c'' hc''
              rw [newCard_storage, hS] at hc''
              exact findCard_eq_none.mp hf c'' hc''
            · refine ⟨⟨stA.nextId, i1.name⟩, ?_, rfl, ?_⟩
              · rcases targetList_cases i1 with h1 | h1 <;> rw [h1]
                · rw [newCard_todoId]
                  exact Or.inl (List.mem_append_right _ (List.mem_singleton_self _))
                · rw [newCard_doneId]
                  exact Or.inr (List.mem_append_right _ (List.mem_singleton_self _))
              · intro c' hc' hidEq
                exact absurd hidEq (Nat.ne_of_lt (hfresh c' hc'))
          · -- already in Done: the first run stops at once, board untouched
            have hitemsA : setupItems s t d stA cl.checkItems = ⟨stA, [], true⟩ := by
              rw [hex]
              simp only [setupItems]
              rw [show setupItem s t d stA i1 = ⟨stA, [], true⟩ from by
                unfold setupItem
                rw [hf]
                simp [hTd, hDd]]
              simp
            have hFA : (setupChecklists s t d stA (cl :: rest)).st = stA := by
              rw [setupChecklists_cons_full s t d stA cl rest hc' (by rw [hitemsA]),
                hitemsA]
            rw [hFA]
            apply finish stA
            · intro c'' hc''
              rw [hS] at hc''
              exact findCard_eq_none.mp hf c'' hc''
            · obtain ⟨cc, hm, hn⟩ := findCard_isSome.mp hDd
              exact ⟨cc, Or.inr (hD.symm ▸ hm), hn⟩
        · -- already in To Do: the first run stops at once, board untouched
          have hitemsA : setupItems s t d stA cl.checkItems = ⟨stA, [], true⟩ := by
            rw [hex]
            simp only [setupItems]
            rw [show setupItem s t d stA i1 = ⟨stA, [], true⟩ from by
              unfold setupItem
              rw [hf]
              simp [hTd]]
            simp
          have hFA : (setupChecklists s t d stA (cl :: rest)).st = stA := by
            rw [setupChecklists_cons_full s t d stA cl rest hc' (by rw [hitemsA]),
              hitemsA]
          rw [hFA]
          apply finish stA
          · intro c'' hc''
            rw [hS] at hc''
            exact findCard_eq_none.mp hf c'' hc''
          · obtain ⟨cc, hm, hn⟩ := findCard_isSome.mp hTd
            exact ⟨cc, Or.inl (hT.symm ▸ hm), hn⟩
      · -- found in Storage: the first run moves that card to its target list
        next c =>
        have hcmem : c ∈ s := findCard_some_mem hf
        have hcname : c.name = i1.name := findCard_some_name hf
        have ho1 : setupItem s t d stA i1 =
            ⟨moveCard stA c (targetList i1), [Ev.move c.id (targetList i1)], false⟩ := by
          unfold setupItem
          rw [hf]
        apply glue _ _ ho1
        · intro c'' hc'' hEq
          rw [moveCard_storage_target, hS] at hc''
          have hmem'' : c'' ∈ s := List.mem_of_mem_filter hc''
          have hid'' : c''.id ≠ c.id := by
            have h2 := (List.mem_filter.mp hc'').2
            simpa using h2
          have hceq : c'' = c :=
            List.inj_on_of_nodup_map hnames hmem'' hcmem (by rw [hEq, hcname])
          exact hid'' (by rw [hceq])
        · refine ⟨⟨c.id, c.name⟩, ?_, hcname, ?_⟩
          · rcases targetList_cases i1 with h1 | h1 <;> rw [h1]
            · rw [moveCard_todoId]
              exact Or.inl (List.mem_append_right _ (List.mem_singleton_self _))
            · rw [moveCard_doneId]
              exact Or.inr (List.mem_append_right _ (List.mem_singleton_self _))
          · intro c' hc' hidEq
            have hceq : c' = c := List.inj_on_of_nodup_map hids hc' hcmem (by simpa using hidEq)
            rw [hceq, hcname]

/-- A full `SetupActiveProjectCard` run whose checklist loop is a no-op over
the current board leaves the three card lists untouched and issues no card
move or creation. -/
theorem setup_second_run (cardId : Nat) (cls : List Checklist) (st1 : BoardState)
    (h : ∀ st2 : BoardState,
      (setupChecklists st1.storage st1.todo st1.done st2 cls).st = st2 ∧
      (setupChecklists st1.storage st1.todo st1.done st2 cls).tr = []) :
    cardLists (SetupActiveProjectCard cardId cls st1).1 = cardLists st1 ∧
    (SetupActiveProjectCard cardId cls st1).2.all (fun e => !(isCardChange e)) = true := by
  have hcall2 : setupChecklists (ensureActivateCardWebhook cardId st1).1.storage
      (ensureActivateCardWebhook cardId st1).1.todo
      (ensureActivateCardWebhook cardId st1).1.done
      (deactivateDoneIfFound (ensureActivateCardWebhook cardId st1).1).1 cls =
      setupChecklists st1.storage st1.todo st1.done
      (deactivateDoneIfFound (ensureActivateCardWebhook cardId st1).1).1 cls := by
    rw [ensure_storage, ensure_todo, ensure_done]
  obtain ⟨hst, htr⟩ := h (deactivateDoneIfFound (ensureActivateCardWebhook cardId st1).1).1
  constructor
  · simp only [SetupActiveProjectCard, hcall2]
    cases hE : (setupChecklists st1.storage st1.todo st1.done
        (deactivateDoneIfFound (ensureActivateCardWebhook cardId st1).1).1 cls).early <;>
      simp [hE, cardLists, act_storage, act_todo, act_done, hst,
        deact_storage, deact_todo, deact_done, ensure_storage, ensure_todo, ensure_done]
  · have hD2all : (deactivateDoneIfFound
        (ensureActivateCardWebhook cardId st1).1).2.all (fun e => !(isCardChange e)) = true := by
      rcases deact_tr_small (ensureActivateCardWebhook cardId st1).1 with h2 | h2 <;>
        rw [h2] <;> rfl
    have hA2all : ∀ stX : BoardState,
        (activateDoneIfFound stX).2.all (fun e => !(isCardChange e)) = true := by
      intro stX
      rcases act_tr_small stX with h2 | h2 <;> rw [h2] <;> rfl
    have hLall : (setupChecklists st1.storage st1.todo st1.done
        (deactivateDoneIfFound (ensureActivateCardWebhook cardId st1).1).1 cls).tr.all
        (fun e => !(isCardChange e)) = true := by
      rw [htr]
      rfl
    simp only [SetupActiveProjectCard, hcall2]
    cases hE : (setupChecklists st1.storage st1.todo st1.done
        (deactivateDoneIfFound (ensureActivateCardWebhook cardId st1).1).1 cls).early <;>
      simp only [hE, Bool.false_eq_true, if_false, if_true, List.all_append,
        Bool.and_eq_true]
    · exact ⟨⟨⟨⟨ensure_tr_not_change cardId st1, rfl⟩, hD2all⟩, hLall⟩, hA2all _⟩
    · exact ⟨⟨⟨ensure_tr_not_change cardId st1, rfl⟩, hD2all⟩, hLall⟩

/-! ## Theorems -/

/-- C1, counterexample.  With two Storage cards sharing the name "A" and a
checklist item "A", the first activation run moves one of them to To Do and
the second run moves the other: the board state after two runs differs from
the state after one, and the second run issues a card move.  The claim, as
stated for every board state, is false. -/
theorem c1_counterexample_dup_storage_names :
    cardLists (SetupActiveProjectCard 20 exClsA (SetupActiveProjectCard 20 exClsA exStA).1).1 ≠
      cardLists (SetupActiveProjectCard 20 exClsA exStA).1 ∧
    Ev.move 11 todoId ∈
      (SetupActiveProjectCard 20 exClsA (SetupActiveProjectCard 20 exClsA exStA).1).2 := by
  decide

/-- C2, code bug.  Checklist [A incomplete, B incomplete], card "A" already
in To Do, card "B" nowhere: the found-in-To-Do branch executes `return nil`,
ending the whole reconciliation.  No card "B" is ever created and the Done
webhook is left deactivated, against the spec's "leave that one item alone
and continue". -/
theorem c2_early_return_divergence :
    (SetupActiveProjectCard 20 exClsAB exStAB).2 =
      [Ev.createWebhook 20, Ev.activateWebhook 20, Ev.fetchChecklists 20,
        Ev.fetchCards storageId, Ev.fetchCards todoId, Ev.fetchCards doneId,
        Ev.deactivateWebhook doneId] ∧
    findCard (SetupActiveProjectCard 20 exClsAB exStAB).1.todo "B" = none ∧
    findCard (SetupActiveProjectCard 20 exClsAB exStAB).1.done "B" = none := by
  decide

/-- C3, counterexample.  Checklist [A incomplete, B incomplete], Storage
holding "A", To Do holding "B": activation deactivates the Done webhook,
moves card "A", then hits the early `return nil` at item "B" - the run ends
with a move issued and the Done webhook never reactivated, so the
reactivate-on-every-exit-path claim is false. -/
theorem c3_counterexample_no_reactivation :
    Ev.move 10 todoId ∈ (SetupActiveProjectCard 20 exClsAB exStMove).2 ∧
    Ev.deactivateWebhook doneId ∈ (SetupActiveProjectCard 20 exClsAB exStMove).2 ∧
    Ev.activateWebhook doneId ∉ (SetupActiveProjectCard 20 exClsAB exStMove).2 := by
  decide

/-- C4, code bug at the failing input.  State `incomplete`, the Done-list
fetch failing with a remote 500: the type assertion on `NotFoundError` fails,
control falls through to `card.Move` on the zero-value card, so the handler
issues a move request for card id 0 and returns that call's outcome (here a
remote 404) - not the original lookup error. -/
theorem c4_zero_card_move_divergence :
    (CheckItemChangeHandle exFaults "A" "incomplete" exStTodoA).res =
      .error (.remote 404) ∧
    (CheckItemChangeHandle exFaults "A" "incomplete" exStTodoA).res ≠
      .error (.remote 500) ∧
    Ev.move zeroCard.id todoId ∈
      (CheckItemChangeHandle exFaults "A" "incomplete" exStTodoA).tr := by
  decide

/-- C7, code bug at the failing input.  A `list` POST whose body matches
neither shape: the response is 204 and the fallback file is keyed by
`(list, 999)`, but its content is empty - `index` already drained `r.Body`
with `ReadAll` before handing it to `RecordResponse` - not the raw payload. -/
theorem c7_drained_body_divergence :
    indexPost [] [] noFaults "list" "999" exBody exStAB =
      ⟨204, exStAB, [], some ⟨"list", "999", ""⟩⟩ ∧
    exBody.raw ≠ "" := by
  decide

/-- C9, counterexample.  On an empty board with a Done webhook, activation's
trace opens with the project card's webhook registration and activation and
ends with the Done webhook's reactivation: ensuring the card's webhook is the
first step, not the final one, so the claim's ordering is false. -/
theorem c9_counterexample_webhook_first :
    (SetupActiveProjectCard 20 exClsA exStEmpty).2 =
      [Ev.createWebhook 20, Ev.activateWebhook 20, Ev.fetchChecklists 20,
        Ev.fetchCards storageId, Ev.fetchCards todoId, Ev.fetchCards doneId,
        Ev.deactivateWebhook doneId, Ev.create "A" todoId,
        Ev.activateWebhook doneId] ∧
    (SetupActiveProjectCard 20 exClsA exStEmpty).2.getLast? ≠
      some (Ev.activateWebhook 20) ∧
    (SetupActiveProjectCard 20 exClsA exStEmpty).2.indexOf (Ev.activateWebhook 20) <
      (SetupActiveProjectCard 20 exClsA exStEmpty).2.indexOf (Ev.activateWebhook doneId) := by
  decide

/-- C10, counterexample.  Checklist [X incomplete, A incomplete, A
incomplete], card "X" already in To Do, no card "A" anywhere: two items share
the name "A" with no pre-existing card of that name, yet the run aborts at
item "X" (early `return nil`) and creates no card "A" at all - not two. -/
theorem c10_counterexample_early_abort :
    (SetupActiveProjectCard 20 exClsXAA exStX).2.countP (isCreateNamed "A") = 0 ∧
    findCard (SetupActiveProjectCard 20 exClsXAA exStX).1.todo "A" = none ∧
    findCard (SetupActiveProjectCard 20 exClsXAA exStX).1.done "A" = none := by
  decide

/-- C5.  A CheckItem-change with state `complete`: when a card with the
item's exact name exists in To Do, the handler succeeds, that single card is
removed from To Do and appended to Done, and the trace holds exactly one move
and no creation; when no such card exists, the handler returns `NotFound`,
the board is unchanged, and nothing is moved or created. -/
theorem c5_complete_transition (st : BoardState) (n : String) :
    (∀ c, findCard st.todo n = some c →
      CheckItemChangeHandle noFaults n "complete" st =
        ⟨.ok (), moveCard st c doneId, [Ev.fetchCards todoId, Ev.move c.id doneId]⟩ ∧
      (moveCard st c doneId).todo = removeCard st.todo c.id ∧
      (moveCard st c doneId).done = removeCard st.done c.id ++ [⟨c.id, c.name⟩] ∧
      [Ev.fetchCards todoId, Ev.move c.id doneId].countP isMove = 1 ∧
      [Ev.fetchCards todoId, Ev.move c.id doneId].countP isCreate = 0) ∧
    (findCard st.todo n = none →
      CheckItemChangeHandle noFaults n "complete" st =
        ⟨.error TrelErr.notFound, st, [Ev.fetchCards todoId]⟩) := by
  constructor
  · intro c hc
    refine ⟨?_, ?_, ?_, ?_, ?_⟩
    · simp [CheckItemChangeHandle, FindCardOn, fetchList, noFaults, MoveCall, hc]
    · rw [moveCard_doneId]
    · rw [moveCard_doneId]
    · simp [List.countP_cons, isMove]
    · simp [List.countP_cons, isCreate]
  · intro hc
    simp [CheckItemChangeHandle, FindCardOn, fetchList, noFaults, hc]

/-- C6.  A checklist in which every item has state `complete` contributes
nothing to activation reconciliation: the whole run - final board and trace -
is identical to the run without that checklist, wherever it sits among the
project card's checklists. -/
theorem c6_all_complete_checklist_skipped (cardId : Nat) (pre post : List Checklist)
    (cl : Checklist) (st : BoardState)
    (h : ∀ ci ∈ cl.checkItems, ci.state = "complete") :
    SetupActiveProjectCard cardId (pre ++ cl :: post) st =
      SetupActiveProjectCard cardId (pre ++ post) st := by
  have hc := allComplete_of_forall cl h
  simp only [SetupActiveProjectCard]
  rw [setup_append_skip _ _ _ cl hc pre _ post]

/-- C6, witness: the all-complete checklist [A complete] is skipped on the
empty board. -/
theorem c6_all_complete_skip_witness :
    SetupActiveProjectCard 20 ([] ++ exClsComplete :: []) exStEmpty =
      SetupActiveProjectCard 20 ([] ++ []) exStEmpty :=
  c6_all_complete_checklist_skipped 20 [] [] exClsComplete exStEmpty (by decide)

/-- C8.  A List-change whose before or after list is Storage is ignored: the
handler succeeds having only fetched the moved card - no move, creation,
check-item toggle or webhook operation - the board is unchanged, and the
HTTP response is 204. -/
theorem c8_storage_moves_ignored (p : ListChangePayload) (cardChecklists : List Checklist)
    (activeCards : List (Card × List Checklist)) (st : BoardState)
    (oid raw : String) (ck : Option CheckItemPayload)
    (h : p.beforeName = storageName ∨ p.afterName = storageName) :
    HandleListChange ⟨p.cardId, p.cardName⟩ cardChecklists activeCards
        p.beforeName p.afterName st = ⟨.ok (), st, [Ev.fetchCard p.cardId]⟩ ∧
    [Ev.fetchCard p.cardId].all (fun e => !(isEffect e)) = true ∧
    indexPost cardChecklists activeCards noFaults "list" oid ⟨raw, some p, ck⟩ st =
      ⟨204, st, [Ev.fetchCard p.cardId], none⟩ := by
  have hH : HandleListChange ⟨p.cardId, p.cardName⟩ cardChecklists activeCards
      p.beforeName p.afterName st = ⟨.ok (), st, [Ev.fetchCard p.cardId]⟩ := by
    simp only [HandleListChange]
    rw [if_pos h]
  refine ⟨hH, by simp [isEffect], ?_⟩
  simp [indexPost, hH]

/-- C8, witness: a move of card "A" from To Do to Storage is a no-op with a
204 response. -/
theorem c8_storage_ignored_witness :
    HandleListChange ⟨7, "A"⟩ [] [] todoName storageName exStAB =
      ⟨.ok (), exStAB, [Ev.fetchCard 7]⟩ :=
  (c8_storage_moves_ignored exStoragePayload [] [] exStAB "999" "x" none (Or.inr rfl)).1

/-- C9, amended.  Ensuring the project card has a registered, active webhook
is the FIRST step of activation reconciliation: the run's trace is the card's
webhook events followed by a remainder that never touches the card's webhook
again. -/
theorem c9_card_webhook_first_amended (cardId : Nat) (cls : List Checklist)
    (st : BoardState) (h : cardId ≠ doneId) :
    ∃ rest, (SetupActiveProjectCard cardId cls st).2 =
      (ensureActivateCardWebhook cardId st).2 ++ rest ∧
      rest.all (fun e => !(isWebhookOn cardId e)) = true ∧
      (ensureActivateCardWebhook cardId st).2.all (isWebhookOn cardId) = true := by
  have hD : ∀ stX : BoardState,
      (deactivateDoneIfFound stX).2.all (fun e => !(isWebhookOn cardId e)) = true := by
    intro stX
    rcases deact_tr_small stX with h2 | h2 <;> rw [h2]
    · rfl
    · simp only [List.all_cons, List.all_nil, Bool.and_true, isWebhookOn]
      simp [Ne.symm h]
  have hA : ∀ stX : BoardState,
      (activateDoneIfFound stX).2.all (fun e => !(isWebhookOn cardId e)) = true := by
    intro stX
    rcases act_tr_small stX with h2 | h2 <;> rw [h2]
    · rfl
    · simp only [List.all_cons, List.all_nil, Bool.and_true, isWebhookOn]
      simp [Ne.symm h]
  have hL : ∀ (s t d : List Card) (stX : BoardState),
      (setupChecklists s t d stX cls).tr.all (fun e => !(isWebhookOn cardId e)) = true := by
    intro s t d stX
    rw [List.all_eq_true]
    intro e he
    rw [isWebhookOn_false_of_change (setupChecklists_tr_change s t d cls stX e he) cardId]
    rfl
  simp only [SetupActiveProjectCard]
  split
  · refine ⟨[Ev.fetchChecklists cardId, Ev.fetchCards storageId, Ev.fetchCards todoId,
        Ev.fetchCards doneId] ++
        ((deactivateDoneIfFound (ensureActivateCardWebhook cardId st).1).2 ++
          (setupChecklists (ensureActivateCardWebhook cardId st).1.storage
            (ensureActivateCardWebhook cardId st).1.todo
            (ensureActivateCardWebhook cardId st).1.done
            (deactivateDoneIfFound (ensureActivateCardWebhook cardId st).1).1 cls).tr),
      ?_, ?_, ensure_tr_webhook cardId st⟩
    · rw [List.append_assoc, List.append_assoc]
    · simp only [List.all_append, Bool.and_eq_true]
      exact ⟨rfl, hD _, hL _ _ _ _⟩
  · refine ⟨[Ev.fetchChecklists cardId, Ev.fetchCards storageId, Ev.fetchCards todoId,
        Ev.fetchCards doneId] ++
        ((deactivateDoneIfFound (ensureActivateCardWebhook cardId st).1).2 ++
          ((setupChecklists (ensureActivateCardWebhook cardId st).1.storage
            (ensureActivateCardWebhook cardId st).1.todo
            (ensureActivateCardWebhook cardId st).1.done
            (deactivateDoneIfFound (ensureActivateCardWebhook cardId st).1).1 cls).tr ++
          (activateDoneIfFound
            (setupChecklists (ensureActivateCardWebhook cardId st).1.storage
              (ensureActivateCardWebhook cardId st).1.todo
              (ensureActivateCardWebhook cardId st).1.done
              (deactivateDoneIfFound (ensureActivateCardWebhook cardId st).1).1 cls).st).2)),
      ?_, ?_, ensure_tr_webhook cardId st⟩
    · rw [List.append_assoc, List.append_assoc, List.append_assoc]
    · simp only [List.all_append, Bool.and_eq_true]
      exact ⟨rfl, hD _, hL _ _ _ _, hA _⟩

/-- C9, witness: the amended ordering at a concrete activation run. -/
theorem c9_card_webhook_first_witness :
    ∃ rest, (SetupActiveProjectCard 20 exClsA exStEmpty).2 =
      (ensureActivateCardWebhook 20 exStEmpty).2 ++ rest ∧
      rest.all (fun e => !(isWebhookOn 20 e)) = true ∧
      (ensureActivateCardWebhook 20 exStEmpty).2.all (isWebhookOn 20) = true :=
  c9_card_webhook_first_amended 20 exClsA exStEmpty (by decide)

/-- C3, amended.  With a Done webhook registered: in both reconciliations the
Done webhook is deactivated before any card move or creation (everything
preceding the deactivation is reads and card-webhook handling); deactivation
reconciliation reactivates it with no card change afterwards; activation
reconciliation reactivates it only as the final event of runs that complete
the checklist loop - a run that never emits the reactivation is possible
(the counterexample), in which case the webhook stays deactivated. -/
theorem c3_suppression_amended (cardId : Nat) (cls : List Checklist) (st : BoardState)
    (hwh : HasWebhook doneId st.webhooks = true) (hcd : cardId ≠ doneId) :
    (∃ l r, (SetupActiveProjectCard cardId cls st).2 =
        l ++ Ev.deactivateWebhook doneId :: r ∧
        l.all (fun e => !(isCardChange e)) = true) ∧
    (∃ l r, (StoreInactiveProjectCard cardId cls st).2 =
        l ++ Ev.deactivateWebhook doneId :: r ∧
        l.all (fun e => !(isCardChange e)) = true) ∧
    (∃ l r, (StoreInactiveProjectCard cardId cls st).2 =
        l ++ Ev.activateWebhook doneId :: r ∧
        r.all (fun e => !(isCardChange e)) = true) ∧
    ((SetupActiveProjectCard cardId cls st).2.getLast? =
        some (Ev.activateWebhook doneId) ∨
      Ev.activateWebhook doneId ∉ (SetupActiveProjectCard cardId cls st).2) := by
  have hS := setup_tr_struct cardId cls st hwh
  have hT := store_tr_struct cardId cls st hwh
  refine ⟨?_, ?_, ?_, ?_⟩
  · refine ⟨(ensureActivateCardWebhook cardId st).2 ++
      [Ev.fetchChecklists cardId, Ev.fetchCards storageId, Ev.fetchCards todoId,
        Ev.fetchCards doneId], _, by rw [hS], ?_⟩
    simp only [List.all_append, Bool.and_eq_true]
    exact ⟨ensure_tr_not_change cardId st, rfl⟩
  · exact ⟨[Ev.fetchChecklists cardId, Ev.fetchCards todoId, Ev.fetchCards doneId],
      _, by rw [hT], rfl⟩
  · refine ⟨[Ev.fetchChecklists cardId, Ev.fetchCards todoId, Ev.fetchCards doneId] ++
        Ev.deactivateWebhook doneId :: (storeLoopOf cls st).2,
      (if HasWebhook cardId
          (activateDoneIfFound (storeLoopOf cls st).1).1.webhooks = true
        then [Ev.deactivateWebhook cardId] else []), ?_, ?_⟩
    · rw [hT]
      simp [List.append_assoc]
    · split <;> simp [isCardChange, isMove, isCreate]
  · cases hE : (setupLoopOf cardId cls st).early
    · left
      have hfull : (SetupActiveProjectCard cardId cls st).2 =
          (((ensureActivateCardWebhook cardId st).2 ++
            [Ev.fetchChecklists cardId, Ev.fetchCards storageId, Ev.fetchCards todoId,
              Ev.fetchCards doneId]) ++
            Ev.deactivateWebhook doneId :: (setupLoopOf cardId cls st).tr) ++
            [Ev.activateWebhook doneId] := by
        rw [hS, hE]
        simp [List.append_assoc]
      rw [hfull, List.getLast?_concat]
    · right
      intro hmem
      rw [hS, hE] at hmem
      simp only [if_true, List.append_nil, List.mem_append, List.mem_cons,
        List.mem_singleton] at hmem
      rcases hmem with ((hmem | hmem) | hmem)
      · have hall := ensure_tr_webhook cardId st
        rw [List.all_eq_true] at hall
        have hw := hall _ hmem
        simp only [isWebhookOn, decide_eq_true_eq] at hw
        exact hcd hw.symm
      · simp at hmem
      · rcases hmem with hmem | hmem
        · exact Ev.noConfusion hmem
        · have hc := setupChecklists_tr_change _ _ _ _ _ _ hmem
          simp [isCardChange, isMove, isCreate] at hc

/-- C3, witness: the amended suppression discipline at a concrete board. -/
theorem c3_suppression_witness :
    (∃ l r, (SetupActiveProjectCard 20 exClsA exStA).2 =
        l ++ Ev.deactivateWebhook doneId :: r ∧
        l.all (fun e => !(isCardChange e)) = true) ∧
    (∃ l r, (StoreInactiveProjectCard 20 exClsA exStA).2 =
        l ++ Ev.deactivateWebhook doneId :: r ∧
        l.all (fun e => !(isCardChange e)) = true) ∧
    (∃ l r, (StoreInactiveProjectCard 20 exClsA exStA).2 =
        l ++ Ev.activateWebhook doneId :: r ∧
        r.all (fun e => !(isCardChange e)) = true) ∧
    ((SetupActiveProjectCard 20 exClsA exStA).2.getLast? =
        some (Ev.activateWebhook doneId) ∨
      Ev.activateWebhook doneId ∉ (SetupActiveProjectCard 20 exClsA exStA).2) :=
  c3_suppression_amended 20 exClsA exStA (by decide) (by decide)

/-- C10, amended.  Activation reconciliation fetches each of the Storage, To
Do and Done memberships exactly once, in a read-only prefix of the run that
precedes every card change, and never re-reads them; consequently, when every
checklist has an incomplete item and no item's name matches any card already
on the three lists, the run creates exactly one card per checklist item - in
particular two items sharing a name yield two created cards of that name
(`countItemsNamed`). -/
theorem c10_snapshot_amended (cardId : Nat) (cls : List Checklist) (st : BoardState)
    (h1 : ∀ cl ∈ cls, ∃ ci ∈ cl.checkItems, ci.state = "incomplete")
    (h2 : ∀ cl ∈ cls, ∀ ci ∈ cl.checkItems,
      findCard st.storage ci.name = none ∧ findCard st.todo ci.name = none ∧
        findCard st.done ci.name = none) :
    ((SetupActiveProjectCard cardId cls st).2.countP
        (fun e => decide (e = Ev.fetchCards storageId)) = 1 ∧
      (SetupActiveProjectCard cardId cls st).2.countP
        (fun e => decide (e = Ev.fetchCards todoId)) = 1 ∧
      (SetupActiveProjectCard cardId cls st).2.countP
        (fun e => decide (e = Ev.fetchCards doneId)) = 1 ∧
      ∃ l r, (SetupActiveProjectCard cardId cls st).2 = l ++ r ∧
        l.all (fun e => !(isCardChange e)) = true ∧
        r.all (fun e => !(isFetchCards e)) = true ∧
        Ev.fetchCards storageId ∈ l ∧ Ev.fetchCards todoId ∈ l ∧
        Ev.fetchCards doneId ∈ l) ∧
    ∀ n, (SetupActiveProjectCard cardId cls st).2.countP (isCreateNamed n) =
      countItemsNamed n cls := by
  have h1' : ∀ cl ∈ cls, allComplete cl = false :=
    fun cl hc => allComplete_false_of_ex cl (h1 cl hc)
  have hcall : setupChecklists (ensureActivateCardWebhook cardId st).1.storage
      (ensureActivateCardWebhook cardId st).1.todo
      (ensureActivateCardWebhook cardId st).1.done
      (deactivateDoneIfFound (ensureActivateCardWebhook cardId st).1).1 cls =
      setupChecklists st.storage st.todo st.done
      (deactivateDoneIfFound (ensureActivateCardWebhook cardId st).1).1 cls := by
    rw [ensure_storage, ensure_todo, ensure_done]
  have hLoop := setupChecklists_create_count st.storage st.todo st.done cls
    (deactivateDoneIfFound (ensureActivateCardWebhook cardId st).1).1 h1' h2
  have htr : (SetupActiveProjectCard cardId cls st).2 =
      (ensureActivateCardWebhook cardId st).2 ++
      [Ev.fetchChecklists cardId, Ev.fetchCards storageId, Ev.fetchCards todoId,
        Ev.fetchCards doneId] ++
      (deactivateDoneIfFound (ensureActivateCardWebhook cardId st).1).2 ++
      (setupChecklists st.storage st.todo st.done
        (deactivateDoneIfFound (ensureActivateCardWebhook cardId st).1).1 cls).tr ++
      (activateDoneIfFound (setupChecklists st.storage st.todo st.done
        (deactivateDoneIfFound (ensureActivateCardWebhook cardId st).1).1 cls).st).2 := by
    simp only [SetupActiveProjectCard, hcall]
    simp only [hLoop.1, Bool.false_eq_true, if_false]
  have hE0 : ∀ p : Ev → Bool, p (Ev.createWebhook cardId) = false →
      p (Ev.activateWebhook cardId) = false →
      (ensureActivateCardWebhook cardId st).2.countP p = 0 := by
    intro p hp1 hp2
    rcases ensure_tr_small cardId st with h | h <;> rw [h] <;>
      simp [List.countP_cons, hp1, hp2]
  have hD0 : ∀ (stX : BoardState) (p : Ev → Bool),
      p (Ev.deactivateWebhook doneId) = false →
      (deactivateDoneIfFound stX).2.countP p = 0 := by
    intro stX p hp
    rcases deact_tr_small stX with h | h <;> rw [h] <;> simp [List.countP_cons, hp]
  have hA0 : ∀ (stX : BoardState) (p : Ev → Bool),
      p (Ev.activateWebhook doneId) = false →
      (activateDoneIfFound stX).2.countP p = 0 := by
    intro stX p hp
    rcases act_tr_small stX with h | h <;> rw [h] <;> simp [List.countP_cons, hp]
  have hL0 : ∀ (s t d : List Card) (stX : BoardState) (p : Ev → Bool),
      (∀ e, isCardChange e = true → p e = false) →
      (setupChecklists s t d stX cls).tr.countP p = 0 := by
    intro s t d stX p hp
    refine List.countP_eq_zero.mpr (fun e he => ?_)
    simp [hp e (setupChecklists_tr_change s t d cls stX e he)]
  refine ⟨⟨?_, ?_, ?_, ?_⟩, ?_⟩
  · rw [htr]
    simp only [List.countP_append]
    rw [hE0 _ (by simp) (by simp), hD0 _ _ (by simp),
      hL0 _ _ _ _ _ (fun e he => fetch_pred_false_of_change he storageId),
      hA0 _ _ (by simp)]
    simp [List.countP_cons, storageId, todoId, doneId]
  · rw [htr]
    simp only [List.countP_append]
    rw [hE0 _ (by simp) (by simp), hD0 _ _ (by simp),
      hL0 _ _ _ _ _ (fun e he => fetch_pred_false_of_change he todoId),
      hA0 _ _ (by simp)]
    simp [List.countP_cons, storageId, todoId, doneId]
  · rw [htr]
    simp only [List.countP_append]
    rw [hE0 _ (by simp) (by simp), hD0 _ _ (by simp),
      hL0 _ _ _ _ _ (fun e he => fetch_pred_false_of_change he doneId),
      hA0 _ _ (by simp)]
    simp [List.countP_cons, storageId, todoId, doneId]
  · refine ⟨(ensureActivateCardWebhook cardId st).2 ++
        [Ev.fetchChecklists cardId, Ev.fetchCards storageId, Ev.fetchCards todoId,
          Ev.fetchCards doneId] ++
        (deactivateDoneIfFound (ensureActivateCardWebhook cardId st).1).2,
      (setupChecklists st.storage st.todo st.done
        (deactivateDoneIfFound (ensureActivateCardWebhook cardId st).1).1 cls).tr ++
      (activateDoneIfFound (setupChecklists st.storage st.todo st.done
        (deactivateDoneIfFound (ensureActivateCardWebhook cardId st).1).1 cls).st).2,
      ?_, ?_, ?_, ?_, ?_, ?_⟩
    · rw [htr]
      simp [List.append_assoc]
    · simp only [List.all_append, Bool.and_eq_true]
      refine ⟨⟨ensure_tr_not_change cardId st, rfl⟩, ?_⟩
      rcases deact_tr_small (ensureActivateCardWebhook cardId st).1 with h | h <;>
        rw [h] <;> rfl
    · simp only [List.all_append, Bool.and_eq_true]
      constructor
      · refine List.all_eq_true.mpr (fun e he => ?_)
        simp [not_fetchCards_of_change
          (setupChecklists_tr_change _ _ _ _ _ e he)]
      · rcases act_tr_small (setupChecklists st.storage st.todo st.done
            (deactivateDoneIfFound (ensureActivateCardWebhook cardId st).1).1 cls).st
          with h | h <;> rw [h] <;> rfl
    · simp
    · simp
    · simp
  · intro n
    rw [htr]
    simp only [List.countP_append]
    rw [hE0 _ rfl rfl, hD0 _ _ rfl, hA0 _ _ rfl, hLoop.2 n]
    simp [List.countP_cons, isCreateNamed]

/-- C10, witness: a checklist [A incomplete, A incomplete] on an empty board
creates two cards named "A". -/
theorem c10_snapshot_witness :
    ((SetupActiveProjectCard 20 [⟨[⟨"A", "incomplete"⟩, ⟨"A", "incomplete"⟩]⟩]
        exStEmpty).2.countP
        (fun e => decide (e = Ev.fetchCards storageId)) = 1 ∧
      (SetupActiveProjectCard 20 [⟨[⟨"A", "incomplete"⟩, ⟨"A", "incomplete"⟩]⟩]
        exStEmpty).2.countP
        (fun e => decide (e = Ev.fetchCards todoId)) = 1 ∧
      (SetupActiveProjectCard 20 [⟨[⟨"A", "incomplete"⟩, ⟨"A", "incomplete"⟩]⟩]
        exStEmpty).2.countP
        (fun e => decide (e = Ev.fetchCards doneId)) = 1 ∧
      ∃ l r, (SetupActiveProjectCard 20 [⟨[⟨"A", "incomplete"⟩, ⟨"A", "incomplete"⟩]⟩]
          exStEmpty).2 = l ++ r ∧
        l.all (fun e => !(isCardChange e)) = true ∧
        r.all (fun e => !(isFetchCards e)) = true ∧
        Ev.fetchCards storageId ∈ l ∧ Ev.fetchCards todoId ∈ l ∧
        Ev.fetchCards doneId ∈ l) ∧
    ∀ n, (SetupActiveProjectCard 20 [⟨[⟨"A", "incomplete"⟩, ⟨"A", "incomplete"⟩]⟩]
        exStEmpty).2.countP (isCreateNamed n) =
      countItemsNamed n [⟨[⟨"A", "incomplete"⟩, ⟨"A", "incomplete"⟩]⟩] :=
  c10_snapshot_amended 20 [⟨[⟨"A", "incomplete"⟩, ⟨"A", "incomplete"⟩]⟩] exStEmpty
    (by decide) (by decide)

/-- C1, amended.  On a board whose Storage holds no two cards of the same
name (and whose card ids are distinct and below the freshness counter),
activation reconciliation is idempotent: a second run for the same project
card, with no external change in between, leaves the Storage / To Do / Done
memberships exactly as the first run did and issues no card creation and no
card move. -/
theorem c1_setup_idempotent (cardId : Nat) (cls : List Checklist) (st : BoardState)
    (hnames : (st.storage.map Card.name).Nodup)
    (hids : (st.storage.map Card.id).Nodup)
    (hfresh : ∀ c ∈ st.storage, c.id < st.nextId) :
    cardLists (SetupActiveProjectCard cardId cls
        (SetupActiveProjectCard cardId cls st).1).1 =
      cardLists (SetupActiveProjectCard cardId cls st).1 ∧
    (SetupActiveProjectCard cardId cls (SetupActiveProjectCard cardId cls st).1).2.all
      (fun e => !(isCardChange e)) = true := by
  have hA_s : (deactivateDoneIfFound
      (ensureActivateCardWebhook cardId st).1).1.storage = st.storage := by
    rw [deact_storage, ensure_storage]
  have hA_t : (deactivateDoneIfFound
      (ensureActivateCardWebhook cardId st).1).1.todo = st.todo := by
    rw [deact_todo, ensure_todo]
  have hA_d : (deactivateDoneIfFound
      (ensureActivateCardWebhook cardId st).1).1.done = st.done := by
    rw [deact_done, ensure_done]
  have hA_n : (deactivateDoneIfFound
      (ensureActivateCardWebhook cardId st).1).1.nextId = st.nextId := by
    rw [deact_nextId, ensure_nextId]
  have hcall : setupChecklists (ensureActivateCardWebhook cardId st).1.storage
      (ensureActivateCardWebhook cardId st).1.todo
      (ensureActivateCardWebhook cardId st).1.done
      (deactivateDoneIfFound (ensureActivateCardWebhook cardId st).1).1 cls =
      setupChecklists st.storage st.todo st.done
      (deactivateDoneIfFound (ensureActivateCardWebhook cardId st).1).1 cls := by
    rw [ensure_storage, ensure_todo, ensure_done]
  have h1s : (SetupActiveProjectCard cardId cls st).1.storage =
      (setupChecklists st.storage st.todo st.done
        (deactivateDoneIfFound (ensureActivateCardWebhook cardId st).1).1 cls).st.storage := by
    simp only [SetupActiveProjectCard, hcall]
    cases hE1 : (setupChecklists st.storage st.todo st.done
        (deactivateDoneIfFound (ensureActivateCardWebhook cardId st).1).1 cls).early <;>
      simp [hE1, act_storage]
  have h1t : (SetupActiveProjectCard cardId cls st).1.todo =
      (setupChecklists st.storage st.todo st.done
        (deactivateDoneIfFound (ensureActivateCardWebhook cardId st).1).1 cls).st.todo := by
    simp only [SetupActiveProjectCard, hcall]
    cases hE1 : (setupChecklists st.storage st.todo st.done
        (deactivateDoneIfFound (ensureActivateCardWebhook cardId st).1).1 cls).early <;>
      simp [hE1, act_todo]
  have h1d : (SetupActiveProjectCard cardId cls st).1.done =
      (setupChecklists st.storage st.todo st.done
        (deactivateDoneIfFound (ensureActivateCardWebhook cardId st).1).1 cls).st.done := by
    simp only [SetupActiveProjectCard, hcall]
    cases hE1 : (setupChecklists st.storage st.todo st.done
        (deactivateDoneIfFound (ensureActivateCardWebhook cardId st).1).1 cls).early <;>
      simp [hE1, act_done]
  apply setup_second_run
  intro st2
  have hidem := setupChecklists_idem cls st.storage st.todo st.done
    (deactivateDoneIfFound (ensureActivateCardWebhook cardId st).1).1
    hA_s hA_t hA_d hnames hids (by simp only [hA_n]; exact hfresh) st2
  rw [h1s, h1t, h1d]
  exact hidem

/-- C1, witness: the amended idempotence on a concrete well-formed board. -/
theorem c1_setup_idempotent_witness :
    cardLists (SetupActiveProjectCard 20 exClsAB
        (SetupActiveProjectCard 20 exClsAB exStMove).1).1 =
      cardLists (SetupActiveProjectCard 20 exClsAB exStMove).1 ∧
    (SetupActiveProjectCard 20 exClsAB
        (SetupActiveProjectCard 20 exClsAB exStMove).1).2.all
      (fun e => !(isCardChange e)) = true :=
  c1_setup_idempotent 20 exClsAB exStMove (by decide) (by decide) (by decide)

end TW
